import Mathlib

/-!
Verification development for the HackScript language core
(`src/language/HackScriptLanguageV2.ts` and the V2 interpreter):
tokenizer, recursive-descent parser, static type checker and
tree-walking evaluator, shallowly embedded in Lean.

Modelling conventions:
* JavaScript numbers (IEEE doubles) are modelled by `JsNumber`: exact
  rationals plus NaN and the two infinities.  Every numeric literal and
  arithmetic result exercised by the theorems below is decimal-exact, so
  rationals stand in for doubles; the special values are explicit.
* JavaScript `Map`s are insertion-ordered association lists; `set`
  replaces in place or appends.
* The mutable `ExecutionContext` tree is an arena (`InterpState.envs`
  indexed by `Nat`); object mutation becomes explicit state passing.
* Unbounded recursion (parser loops, evaluator loops, user function
  calls) is driven by a fuel parameter; exhaustion is a distinguished
  outcome, never a JavaScript runtime error.
-/

namespace HackScript

/-!
Rational arithmetic written through `mkRat` and `num`/`den` so that
concrete program runs reduce inside the kernel (the library operations
on `ℚ` are `@[irreducible]`).  The lemmas `qAdd_eq` … below certify
that each operation agrees with the library one.
-/

/-- Addition on `ℚ`, kernel-computable. -/
def qAdd (a b : ℚ) : ℚ := mkRat (a.num * b.den + b.num * a.den) (a.den * b.den)

/-- Negation on `ℚ`, kernel-computable. -/
def qNeg (a : ℚ) : ℚ := mkRat (-a.num) a.den

/-- Subtraction on `ℚ`, kernel-computable. -/
def qSub (a b : ℚ) : ℚ := qAdd a (qNeg b)

/-- Multiplication on `ℚ`, kernel-computable. -/
def qMul (a b : ℚ) : ℚ := mkRat (a.num * b.num) (a.den * b.den)

/-- Inverse on `ℚ` (0 maps to 0), kernel-computable. -/
def qInv (a : ℚ) : ℚ :=
  if a.num < 0 then mkRat (-(a.den : ℤ)) a.num.natAbs
  else mkRat (a.den : ℤ) a.num.natAbs

/-- Division on `ℚ`, kernel-computable. -/
def qDiv (a b : ℚ) : ℚ := qMul a (qInv b)

/-- Model of a JavaScript number: an exact rational, or one of the IEEE
special values NaN / +Infinity / -Infinity. -/
inductive JsNumber where
  | rat (q : ℚ)
  | posInf
  | negInf
  | nan
  deriving DecidableEq

namespace JsNumber

/-- JS unary minus on numbers. -/
def negN : JsNumber → JsNumber
  | rat q => rat (qNeg q)
  | posInf => negInf
  | negInf => posInf
  | nan => nan

/-- JS `+` on two numbers. -/
def addN : JsNumber → JsNumber → JsNumber
  | nan, _ => nan
  | _, nan => nan
  | posInf, negInf => nan
  | negInf, posInf => nan
  | posInf, _ => posInf
  | _, posInf => posInf
  | negInf, _ => negInf
  | _, negInf => negInf
  | rat a, rat b => rat (qAdd a b)

/-- JS `-` on two numbers. -/
def subN (a b : JsNumber) : JsNumber := addN a (negN b)

/-- JS `*` on two numbers. -/
def mulN : JsNumber → JsNumber → JsNumber
  | nan, _ => nan
  | _, nan => nan
  | rat a, rat b => rat (qMul a b)
  | posInf, posInf => posInf
  | posInf, negInf => negInf
  | negInf, posInf => negInf
  | negInf, negInf => posInf
  | posInf, rat b => if b = 0 then nan else if 0 < b then posInf else negInf
  | rat a, posInf => if a = 0 then nan else if 0 < a then posInf else negInf
  | negInf, rat b => if b = 0 then nan else if 0 < b then negInf else posInf
  | rat a, negInf => if a = 0 then nan else if 0 < a then negInf else posInf

/-- JS `/` on two numbers (signed zero is not modelled; division of a
nonzero rational by zero picks the sign of the dividend). -/
def divN : JsNumber → JsNumber → JsNumber
  | nan, _ => nan
  | _, nan => nan
  | rat a, rat b =>
      if b = 0 then (if a = 0 then nan else if 0 < a then posInf else negInf)
      else rat (qDiv a b)
  | rat _, posInf => rat 0
  | rat _, negInf => rat 0
  | posInf, rat b => if 0 ≤ b then posInf else negInf
  | negInf, rat b => if 0 ≤ b then negInf else posInf
  | posInf, posInf => nan
  | posInf, negInf => nan
  | negInf, posInf => nan
  | negInf, negInf => nan

/-- Truncation toward zero, as JS `%` requires (the denominator of a
rational is positive, so `Int.tdiv` of `num` by `den` truncates the
quotient toward zero). -/
def jsTrunc (q : ℚ) : ℤ := q.num.tdiv q.den

/-- JS `%` (remainder with the sign of the dividend). -/
def remN : JsNumber → JsNumber → JsNumber
  | nan, _ => nan
  | _, nan => nan
  | posInf, _ => nan
  | negInf, _ => nan
  | rat a, posInf => rat a
  | rat a, negInf => rat a
  | rat a, rat b => if b = 0 then nan else rat (qSub a (qMul b (mkRat (jsTrunc (qDiv a b)) 1)))

/-- JS `<` on numbers: any comparison with NaN is false. -/
def ltN : JsNumber → JsNumber → Bool
  | nan, _ => false
  | _, nan => false
  | rat a, rat b => decide (a < b)
  | rat _, posInf => true
  | rat _, negInf => false
  | posInf, _ => false
  | negInf, negInf => false
  | negInf, _ => true

/-- JS `<=` on numbers: any comparison with NaN is false. -/
def leN : JsNumber → JsNumber → Bool
  | nan, _ => false
  | _, nan => false
  | rat a, rat b => decide (a ≤ b)
  | rat _, posInf => true
  | rat _, negInf => false
  | posInf, posInf => true
  | posInf, _ => false
  | negInf, _ => true

/-- JS `>`. -/
def gtN (a b : JsNumber) : Bool := ltN b a

/-- JS `>=`. -/
def geN (a b : JsNumber) : Bool := leN b a

/-- JS `Number.isInteger`. -/
def isIntN : JsNumber → Bool
  | rat q => q.den == 1
  | _ => false

/-- Least exponent `k ≤ 40` with `d ∣ 10^k`, if any: the denominator of a
decimal-exact rational divides such a power. -/
def decExp (d : Nat) : Option Nat := (List.range 41).find? (fun k => decide (d ∣ 10 ^ k))

/-- JS `String(n)` for numbers, exact on decimal-representable rationals
(the only ones the theorems evaluate); a rational with no finite decimal
expansion gets a `num/den` fallback in place of the shortest-round-trip
double rendering. -/
def numToString : JsNumber → String
  | nan => "NaN"
  | posInf => "Infinity"
  | negInf => "-Infinity"
  | rat q =>
      match decExp q.den with
      | some 0 => toString q.num
      | some (k+1) =>
          let n := q.num.natAbs * 10 ^ (k+1) / q.den
          let ip := n / 10 ^ (k+1)
          let fp := n % 10 ^ (k+1)
          let fs := toString fp
          let pad := String.mk (List.replicate (k + 1 - fs.length) (Char.ofNat 48))
          (if q.num < 0 then "-" else "") ++ toString ip ++ "." ++ pad ++ fs
      | none => toString q.num ++ "/" ++ toString q.den

end JsNumber

/-- The `TypeInfo` from HackScriptLanguageV2: a type name, a primitive flag,
a nullable flag and optional generic parameters. -/
inductive TypeInfo where
  | mk (name : String) (primitive : Bool) (nullable : Bool) (genericParams : List TypeInfo)

def TypeInfo.name : TypeInfo → String
  | .mk n _ _ _ => n

def TypeInfo.primitive : TypeInfo → Bool
  | .mk _ p _ _ => p

def TypeInfo.nullable : TypeInfo → Bool
  | .mk _ _ q _ => q

def TypeInfo.genericParams : TypeInfo → List TypeInfo
  | .mk _ _ _ g => g

/-- The fixed primitive-type table of `HackScriptTypeSystem`. -/
def primitiveTypes : List (String × TypeInfo) :=
  [ ("int", .mk "int" true false [])
  , ("float", .mk "float" true false [])
  , ("string", .mk "string" true false [])
  , ("bool", .mk "bool" true false [])
  , ("char", .mk "char" true false [])
  , ("void", .mk "void" true false []) ]

/-- The `HackScriptTypeSystem.getPrimitiveType`. -/
def getPrimitiveType (n : String) : Option TypeInfo :=
  (primitiveTypes.find? (fun p => p.1 == n)).map (fun p => p.2)

/-- The `HackScriptTypeSystem.isAssignable`: name match, int-to-float
widening, or wrapping a non-nullable source into a nullable target. -/
def isAssignable (f t : TypeInfo) : Bool :=
  if f.name == t.name then true
  else if f.name == "int" && t.name == "float" then true
  else if t.nullable && !f.nullable then true
  else false

/-- The `HackScriptTypeSystem.createArrayType`. -/
def createArrayType (e : TypeInfo) : TypeInfo :=
  .mk ("Array<" ++ e.name ++ ">") false false [e]

/-- Diagnostic severity. -/
inductive Severity where
  | error
  | warning
  | info
  deriving DecidableEq

/-- The `CompileError`. -/
structure CompileError where
  line : Nat
  column : Nat
  message : String
  severity : Severity
  deriving DecidableEq

/-- Expression AST nodes, one constructor per `type` tag built by
`HackScriptParser`. -/
inductive Expr where
  | numberLit (value : JsNumber) (numberType : String)
  | stringLit (value : String)
  | boolLit (value : Bool)
  | nullLit
  | arrayLit (elements : List Expr)
  | objectLit (properties : List (String × Expr))
  | ident (name : String)
  | binary (op : String) (left right : Expr)
  | unary (op : String) (operand : Expr)
  | assign (left right : Expr)
  | call (callee : Expr) (args : List Expr)
  | arrayAccess (object index : Expr)
  | propAccess (object : Expr) (property : String)

/-- Statement AST nodes.  A function parameter is
`(name, type, optional default expression)`. -/
inductive Stmt where
  | varDecl (keyword name : String) (tyAnn : TypeInfo) (initE : Option Expr) (mutable : Bool)
  | funcDecl (name : String) (params : List (String × TypeInfo × Option Expr))
      (returnType : TypeInfo) (body : Stmt)
  | exprStmt (expression : Expr)
  | block (body : List Stmt)
  | ifStmt (condition : Expr) (consequent : Stmt) (alternate : Option Stmt)
  | forStmt (init : Stmt) (condition update : Expr) (body : Stmt)
  | whileStmt (condition : Expr) (body : Stmt)
  | returnStmt (value : Option Expr)

/- ## Tokenizer -/

def quoteC : Char := Char.ofNat 34

def aposC : Char := Char.ofNat 39

def lbraceC : Char := Char.ofNat 123

def rbraceC : Char := Char.ofNat 125

def isWsChar (c : Char) : Bool := c.isWhitespace

def isWordChar (c : Char) : Bool := c.isAlphanum || c == '_'

def isLineEnd (c : Char) : Bool := c == '\n' || c == '\r'

/-- Body of a block comment up to and including the closing pair,
matching the lazy `[\s\S]*?` of the source regex; `none` when the
comment is unterminated (that regex alternative then fails). -/
def findBlockEnd : List Char → Option (List Char × List Char)
  | [] => none
  | '*' :: '/' :: rest => some ([], rest)
  | c :: rest => (findBlockEnd rest).map (fun p => (c :: p.1, p.2))

/-- The two-character operator alternatives of the tokenizer regex, in
regex order. -/
def twoCharOps : List String := ["==", "!=", "<=", ">=", "&&", "||", "::", "->"]

/-- The single-character alternatives of the tokenizer regex, in regex
order. -/
def singleCharToks : List Char :=
  [ '=', '<', '>', '+', '-', '*', '/', '%', '(', ')', lbraceC, rbraceC,
    '[', ']', ';', ',', ':', quoteC, aposC ]

/-- Does `cs` start with the characters of `p`?  Returns the rest. -/
def stripLead : List Char → List Char → Option (List Char)
  | [], cs => some cs
  | _, [] => none
  | p :: ps, c :: cs => if c == p then stripLead ps cs else none

/-- First two-character operator (regex order) matching at the head. -/
def matchTwoChar (cs : List Char) : Option (String × List Char) :=
  twoCharOps.firstM (fun op =>
    (stripLead op.data cs).map (fun rest => (op, rest)))

/-- First single-character alternative matching at the head. -/
def matchSingleChar (cs : List Char) : Option (String × List Char) :=
  match cs with
  | [] => none
  | c :: rest => if singleCharToks.contains c then some (String.mk [c], rest) else none

/-- The regex alternatives after the comment forms: two-character
operators, single characters, word run (`\w+`), digit run
(`\d+\.?\d*`, unreachable after `\w+` but kept for fidelity), then any
single character. -/
def nextTokTail (cs : List Char) : Option (String × List Char) :=
  match matchTwoChar cs with
  | some r => some r
  | none =>
    match matchSingleChar cs with
    | some r => some r
    | none =>
      match cs with
      | [] => none
      | c :: rest =>
        if isWordChar c then
          let p := cs.span isWordChar
          some (String.mk p.1, p.2)
        else if c.isDigit then
          let p := cs.span Char.isDigit
          some (String.mk p.1, p.2)
        else
          -- `.` (any character); line terminators are whitespace, so
          -- this alternative always applies here
          some (String.mk [c], rest)

/-- One match of the tokenizer regex at the current position: the
alternatives are tried in the order they appear in the source regex
(whitespace run, line comment, block comment, then `nextTokTail`). -/
def nextTok (cs : List Char) : Option (String × List Char) :=
  match cs with
  | [] => none
  | c :: _ =>
    if isWsChar c then
      let p := cs.span isWsChar
      some (String.mk p.1, p.2)
    else
      match cs with
      | '/' :: '/' :: rest =>
          let p := rest.span (fun d => !isLineEnd d)
          some ("//" ++ String.mk p.1, p.2)
      | _ =>
        match cs with
        | '/' :: '*' :: rest =>
          match findBlockEnd rest with
          | some (mid, rest') => some ("/*" ++ String.mk mid ++ "*/", rest')
          | none => nextTokTail cs
        | _ => nextTokTail cs

/-- Repeated regex matching over the whole input (`String.match` with the
global flag); every character is matched by some alternative.  Defined
through `Nat.rec` on the fuel so that concrete runs reduce quickly in
the kernel. -/
def tokenizeAux : Nat → List Char → List String :=
  fun n =>
    Nat.rec (motive := fun _ => List Char → List String)
      (fun _ => [])
      (fun _ prev cs =>
        match cs with
        | [] => []
        | _ =>
          match nextTok cs with
          | some (t, rest) => t :: prev rest
          | none =>
            match cs with
            | _ :: rest => prev rest
            | [] => [])
      n

/-- The `t.match(/^\s+$/)`: the token is one or more whitespace characters. -/
def isAllWs (t : String) : Bool := !t.data.isEmpty && t.data.all isWsChar

/-- The `t.match(/^\/\//)`: the token starts with two slashes. -/
def startsLineComment (t : String) : Bool :=
  match t.data with
  | a :: b :: _ => a == '/' && b == '/'
  | _ => false

/-- The `HackScriptParser.tokenize`: match all regex alternatives, then drop
whitespace-only tokens and tokens beginning with `//`. -/
def tokenize (code : String) : List String :=
  (tokenizeAux (code.length + 1) code.data).filter
    (fun t => !isAllWs t && !startsLineComment t)

/- ## Parser -/

/-- Mutable parser state: the token list, the cursor, and the recovered
diagnostics.  Failed parse attempts keep their state mutations, as
thrown JS exceptions do. -/
structure PState where
  tokens : List String
  position : Nat
  errors : List CompileError

/-- The `currentToken`: the token at the cursor, or the empty string past
the end. -/
def curTok (st : PState) : String := st.tokens.getD st.position ""

/-- The `consume`: return the current token and advance the cursor. -/
def consumeTok (st : PState) : String × PState :=
  (curTok st, { st with position := st.position + 1 })

/-- The `expect`: consume one token and fail unless it is the expected one.
(The quote characters around the interpolated tokens of the source
message are dropped.) -/
def expectTok (st : PState) (expected : String) : PState × Except String Unit :=
  let r := consumeTok st
  if r.1 == expected then (r.2, .ok ())
  else (r.2, .error ("Expected " ++ expected ++ ", got " ++ r.1))

/-- Sequencing of parse steps that propagates failures while keeping the
state at the point of failure. -/
def pbind {α β : Type} (r : PState × Except String α)
    (f : α → PState → PState × Except String β) : PState × Except String β :=
  match r with
  | (st, .error e) => (st, .error e)
  | (st, .ok a) => f a st

/-- The test `/^\d+\.?\d*$/` used by `parsePrimaryExpression`. -/
def isNumberTok (t : String) : Bool :=
  let cs := t.data
  let ds := cs.takeWhile Char.isDigit
  let rest := cs.drop ds.length
  !ds.isEmpty &&
    (rest.isEmpty || (rest.headD ' ' == '.' && (rest.drop 1).all Char.isDigit))

/-- The test `/^[a-zA-Z_][a-zA-Z0-9_]*$/` used by
`parsePrimaryExpression`. -/
def isIdentTok (t : String) : Bool :=
  match t.data with
  | [] => false
  | c :: cs => (c.isAlpha || c == '_') && cs.all (fun d => d.isAlphanum || d == '_')

/-- Value of a digit run. -/
def digitsToNat (cs : List Char) : Nat := cs.foldl (fun a c => a * 10 + (c.toNat - 48)) 0

/-- The `parseInt` / `parseFloat` applied by `parseNumberLiteral` to a token
already matched by `/^\d+\.?\d*$/`. -/
def parseNumTok (t : String) : JsNumber :=
  let cs := t.data
  if cs.contains '.' then
    let ip := cs.takeWhile (fun c => c != '.')
    let fp := cs.drop (ip.length + 1)
    .rat (mkRat (digitsToNat ip * 10 ^ fp.length + digitsToNat fp) (10 ^ fp.length))
  else .rat (mkRat (digitsToNat cs) 1)

def quoteS : String := String.mk [quoteC]

def aposS : String := String.mk [aposC]

def lbraceS : String := String.mk [lbraceC]

def rbraceS : String := String.mk [rbraceC]

/-- Remove the first occurrence of `pat` from a character list
(JS `String.replace` with a string pattern replaces only the first
occurrence; the library `String.replace` replaces all and is not
kernel-computable). -/
def removeFirstL (pat : List Char) : List Char → List Char
  | [] => []
  | c :: rest =>
    match stripLead pat (c :: rest) with
    | some tail => tail
    | none => c :: removeFirstL pat rest

/-- JS `s.replace(pat, "")`. -/
def removeFirst (s pat : String) : String := String.mk (removeFirstL pat.data s.data)

/-- Message used when the fuel of the model runs out; never produced by
the JavaScript source (which would still be looping). -/
def fuelMsg : String := "model: out of fuel"

/-- Diagnostic recorded when `pProgram` itself runs out of fuel, so that
fuel exhaustion is never mistaken for a clean parse. -/
def fuelDiag : CompileError := ⟨1, 0, fuelMsg, .error⟩

/-- The record of parser operations at one fuel level.  The source
methods are mutually recursive with unbounded depth; `pStep` builds the
functions at fuel `n+1` from those at fuel `n` (`Nat.rec` keeps concrete
runs kernel-computable). -/
structure PFuns where
  program : PState → PState × List Stmt
  statement : PState → PState × Except String Stmt
  varDecl : PState → PState × Except String Stmt
  funcDecl : PState → PState × Except String Stmt
  typeP : PState → PState × Except String TypeInfo
  generics : PState → PState × Except String (List TypeInfo)
  params : PState → PState × Except String (List (String × TypeInfo × Option Expr))
  blockBody : PState → PState × Except String (List Stmt)
  ifStmtP : PState → PState × Except String Stmt
  forStmtP : PState → PState × Except String Stmt
  whileStmtP : PState → PState × Except String Stmt
  returnStmtP : PState → PState × Except String Stmt
  exprStmtP : PState → PState × Except String Stmt
  exprP : PState → PState × Except String Expr
  assignP : PState → PState × Except String Expr
  orP : PState → PState × Except String Expr
  orLoop : Expr → PState → PState × Except String Expr
  andP : PState → PState × Except String Expr
  andLoop : Expr → PState → PState × Except String Expr
  eqP : PState → PState × Except String Expr
  eqLoop : Expr → PState → PState × Except String Expr
  relP : PState → PState × Except String Expr
  relLoop : Expr → PState → PState × Except String Expr
  addP : PState → PState × Except String Expr
  addLoop : Expr → PState → PState × Except String Expr
  mulP : PState → PState × Except String Expr
  mulLoop : Expr → PState → PState × Except String Expr
  unaryP : PState → PState × Except String Expr
  postfixP : PState → PState × Except String Expr
  postfixLoop : Expr → PState → PState × Except String Expr
  argsP : PState → PState × Except String (List Expr)
  primaryP : PState → PState × Except String Expr
  arrayLitP : PState → PState × Except String Expr
  arrayElems : PState → PState × Except String (List Expr)
  objectLitP : PState → PState × Except String Expr
  objectProps : PState → PState × Except String (List (String × Expr))
  stringLitP : PState → PState × Except String Expr
  stringBody : String → String → PState → PState × Except String String

/-- Out-of-fuel parser record: every operation reports fuel exhaustion
(`program` records it as a diagnostic so that it can never be mistaken
for a clean parse). -/
def pBase : PFuns where
  program := fun st => ({ st with errors := st.errors ++ [fuelDiag] }, [])
  statement := fun st => (st, .error fuelMsg)
  varDecl := fun st => (st, .error fuelMsg)
  funcDecl := fun st => (st, .error fuelMsg)
  typeP := fun st => (st, .error fuelMsg)
  generics := fun st => (st, .error fuelMsg)
  params := fun st => (st, .error fuelMsg)
  blockBody := fun st => (st, .error fuelMsg)
  ifStmtP := fun st => (st, .error fuelMsg)
  forStmtP := fun st => (st, .error fuelMsg)
  whileStmtP := fun st => (st, .error fuelMsg)
  returnStmtP := fun st => (st, .error fuelMsg)
  exprStmtP := fun st => (st, .error fuelMsg)
  exprP := fun st => (st, .error fuelMsg)
  assignP := fun st => (st, .error fuelMsg)
  orP := fun st => (st, .error fuelMsg)
  orLoop := fun _ st => (st, .error fuelMsg)
  andP := fun st => (st, .error fuelMsg)
  andLoop := fun _ st => (st, .error fuelMsg)
  eqP := fun st => (st, .error fuelMsg)
  eqLoop := fun _ st => (st, .error fuelMsg)
  relP := fun st => (st, .error fuelMsg)
  relLoop := fun _ st => (st, .error fuelMsg)
  addP := fun st => (st, .error fuelMsg)
  addLoop := fun _ st => (st, .error fuelMsg)
  mulP := fun st => (st, .error fuelMsg)
  mulLoop := fun _ st => (st, .error fuelMsg)
  unaryP := fun st => (st, .error fuelMsg)
  postfixP := fun st => (st, .error fuelMsg)
  postfixLoop := fun _ st => (st, .error fuelMsg)
  argsP := fun st => (st, .error fuelMsg)
  primaryP := fun st => (st, .error fuelMsg)
  arrayLitP := fun st => (st, .error fuelMsg)
  arrayElems := fun st => (st, .error fuelMsg)
  objectLitP := fun st => (st, .error fuelMsg)
  objectProps := fun st => (st, .error fuelMsg)
  stringLitP := fun st => (st, .error fuelMsg)
  stringBody := fun _ _ st => (st, .error fuelMsg)

/-- One fuel level of the parser, translated method by method from
`HackScriptParser`; every recursive call goes through `prev`. -/
def pStep (prev : PFuns) : PFuns where
  /- `parseProgram`: parse statements to the end of the token list,
  recovering from a failure by recording a diagnostic (line 1, column =
  cursor after the failed attempt) and advancing one token. -/
  program := fun st =>
    if st.position < st.tokens.length then
      match prev.statement st with
      | (st1, .ok s) =>
        let r := prev.program st1
        (r.1, s :: r.2)
      | (st1, .error e) =>
        prev.program
          { st1 with
            errors := st1.errors ++ [⟨1, st1.position, e, .error⟩],
            position := st1.position + 1 }
    else (st, [])
  /- `parseStatement`: dispatch on the current token. -/
  statement := fun st =>
    let t := curTok st
    if t == "let" || t == "const" then prev.varDecl st
    else if t == "func" then prev.funcDecl st
    else if t == "if" then prev.ifStmtP st
    else if t == "for" then prev.forStmtP st
    else if t == "while" then prev.whileStmtP st
    else if t == "return" then prev.returnStmtP st
    else prev.exprStmtP st
  /- `parseVariableDeclaration`: `let`/`const` name `:` type
  [`=` expr] `;`. -/
  varDecl := fun st =>
    let (keyword, st) := consumeTok st
    let (name, st) := consumeTok st
    pbind (expectTok st ":") fun _ st =>
    pbind (prev.typeP st) fun ty st =>
    pbind
      (if curTok st == "=" then
        let (_, st) := consumeTok st
        pbind (prev.exprP st) fun e st => (st, .ok (some e))
      else (st, .ok none)) fun initOpt st =>
    pbind (expectTok st ";") fun _ st =>
    (st, .ok (.varDecl keyword name ty initOpt (keyword == "let")))
  /- `parseFunctionDeclaration`. -/
  funcDecl := fun st =>
    let (_, st) := consumeTok st
    let (name, st) := consumeTok st
    pbind (expectTok st "(") fun _ st =>
    pbind (prev.params st) fun params st =>
    pbind (expectTok st ")") fun _ st =>
    pbind (expectTok st "->") fun _ st =>
    pbind (prev.typeP st) fun retTy st =>
    pbind (expectTok st lbraceS) fun _ st =>
    pbind (prev.blockBody st) fun body st =>
    pbind (expectTok st rbraceS) fun _ st =>
    (st, .ok (.funcDecl name params retTy (.block body)))
  /- `parseType`: base name, then either recursively parsed generic
  arguments or an optional trailing `?`. -/
  typeP := fun st =>
    let (baseType, st) := consumeTok st
    if curTok st == "<" then
      let (_, st) := consumeTok st
      pbind (prev.generics st) fun gps st =>
      pbind (expectTok st ">") fun _ st =>
      (st, .ok (.mk (baseType ++ "<" ++ String.intercalate ", " (gps.map TypeInfo.name) ++ ">")
        false false gps))
    else if curTok st == "?" then
      let (_, st) := consumeTok st
      let bq := baseType ++ "?"
      (st, .ok (.mk bq (getPrimitiveType (removeFirst bq "?")).isSome true []))
    else
      (st, .ok (.mk baseType (getPrimitiveType (removeFirst baseType "?")).isSome false []))
  /- The do-while loop of `parseType` collecting generic arguments. -/
  generics := fun st =>
    pbind (prev.typeP st) fun t st =>
    let st := if curTok st == "," then (consumeTok st).2 else st
    if curTok st == ">" then (st, .ok [t])
    else pbind (prev.generics st) fun ts st => (st, .ok (t :: ts))
  /- `parseParameterList`: name `:` type [`=` default], comma
  separated, up to the closing parenthesis. -/
  params := fun st =>
    if curTok st == ")" then (st, .ok [])
    else
      let (name, st) := consumeTok st
      pbind (expectTok st ":") fun _ st =>
      pbind (prev.typeP st) fun ty st =>
      pbind
        (if curTok st == "=" then
          let (_, st) := consumeTok st
          pbind (prev.exprP st) fun e st => (st, .ok (some e))
        else (st, .ok none)) fun dflt st =>
      let st := if curTok st == "," then (consumeTok st).2 else st
      pbind (prev.params st) fun rest st =>
      (st, .ok ((name, ty, dflt) :: rest))
  /- `parseBlockStatement`: statements up to a closing brace or the end
  of the token list. -/
  blockBody := fun st =>
    if curTok st != rbraceS && st.position < st.tokens.length then
      pbind (prev.statement st) fun s st =>
      pbind (prev.blockBody st) fun rest st =>
      (st, .ok (s :: rest))
    else (st, .ok [])
  /- `parseIfStatement` with else / else-if chaining. -/
  ifStmtP := fun st =>
    let (_, st) := consumeTok st
    pbind (expectTok st "(") fun _ st =>
    pbind (prev.exprP st) fun cond st =>
    pbind (expectTok st ")") fun _ st =>
    pbind (expectTok st lbraceS) fun _ st =>
    pbind (prev.blockBody st) fun cons st =>
    pbind (expectTok st rbraceS) fun _ st =>
    if curTok st == "else" then
      let (_, st) := consumeTok st
      if curTok st == "if" then
        pbind (prev.ifStmtP st) fun alt st =>
        (st, .ok (.ifStmt cond (.block cons) (some alt)))
      else
        pbind (expectTok st lbraceS) fun _ st =>
        pbind (prev.blockBody st) fun altBody st =>
        pbind (expectTok st rbraceS) fun _ st =>
        (st, .ok (.ifStmt cond (.block cons) (some (.block altBody))))
    else (st, .ok (.ifStmt cond (.block cons) none))
  /- `parseForStatement`: `for (` declaration expr `;` expr `)` block.
  The declaration is parsed by `varDecl`, which itself consumes the
  first semicolon. -/
  forStmtP := fun st =>
    let (_, st) := consumeTok st
    pbind (expectTok st "(") fun _ st =>
    pbind (prev.varDecl st) fun init st =>
    pbind (prev.exprP st) fun cond st =>
    pbind (expectTok st ";") fun _ st =>
    pbind (prev.exprP st) fun update st =>
    pbind (expectTok st ")") fun _ st =>
    pbind (expectTok st lbraceS) fun _ st =>
    pbind (prev.blockBody st) fun body st =>
    pbind (expectTok st rbraceS) fun _ st =>
    (st, .ok (.forStmt init cond update (.block body)))
  /- `parseWhileStatement`. -/
  whileStmtP := fun st =>
    let (_, st) := consumeTok st
    pbind (expectTok st "(") fun _ st =>
    pbind (prev.exprP st) fun cond st =>
    pbind (expectTok st ")") fun _ st =>
    pbind (expectTok st lbraceS) fun _ st =>
    pbind (prev.blockBody st) fun body st =>
    pbind (expectTok st rbraceS) fun _ st =>
    (st, .ok (.whileStmt cond (.block body)))
  /- `parseReturnStatement`. -/
  returnStmtP := fun st =>
    let (_, st) := consumeTok st
    if curTok st != ";" then
      pbind (prev.exprP st) fun v st =>
      pbind (expectTok st ";") fun _ st =>
      (st, .ok (.returnStmt (some v)))
    else
      pbind (expectTok st ";") fun _ st =>
      (st, .ok (.returnStmt none))
  /- `parseExpressionStatement`. -/
  exprStmtP := fun st =>
    pbind (prev.exprP st) fun e st =>
    pbind (expectTok st ";") fun _ st =>
    (st, .ok (.exprStmt e))
  /- `parseExpression`. -/
  exprP := fun st => prev.assignP st
  /- `parseAssignmentExpression` (right associative). -/
  assignP := fun st =>
    pbind (prev.orP st) fun left st =>
    if curTok st == "=" then
      let (_, st) := consumeTok st
      pbind (prev.assignP st) fun right st =>
      (st, .ok (.assign left right))
    else (st, .ok left)
  /- `parseLogicalOrExpression` and its operator loop. -/
  orP := fun st => pbind (prev.andP st) fun l st => prev.orLoop l st
  orLoop := fun left st =>
    if curTok st == "||" then
      let (op, st) := consumeTok st
      pbind (prev.andP st) fun r st =>
      prev.orLoop (.binary op left r) st
    else (st, .ok left)
  /- `parseLogicalAndExpression` and its operator loop. -/
  andP := fun st => pbind (prev.eqP st) fun l st => prev.andLoop l st
  andLoop := fun left st =>
    if curTok st == "&&" then
      let (op, st) := consumeTok st
      pbind (prev.eqP st) fun r st =>
      prev.andLoop (.binary op left r) st
    else (st, .ok left)
  /- `parseEqualityExpression` and its operator loop. -/
  eqP := fun st => pbind (prev.relP st) fun l st => prev.eqLoop l st
  eqLoop := fun left st =>
    if ["==", "!="].contains (curTok st) then
      let (op, st) := consumeTok st
      pbind (prev.relP st) fun r st =>
      prev.eqLoop (.binary op left r) st
    else (st, .ok left)
  /- `parseRelationalExpression` and its operator loop. -/
  relP := fun st => pbind (prev.addP st) fun l st => prev.relLoop l st
  relLoop := fun left st =>
    if ["<", ">", "<=", ">="].contains (curTok st) then
      let (op, st) := consumeTok st
      pbind (prev.addP st) fun r st =>
      prev.relLoop (.binary op left r) st
    else (st, .ok left)
  /- `parseAdditiveExpression` and its operator loop. -/
  addP := fun st => pbind (prev.mulP st) fun l st => prev.addLoop l st
  addLoop := fun left st =>
    if ["+", "-"].contains (curTok st) then
      let (op, st) := consumeTok st
      pbind (prev.mulP st) fun r st =>
      prev.addLoop (.binary op left r) st
    else (st, .ok left)
  /- `parseMultiplicativeExpression` and its operator loop. -/
  mulP := fun st => pbind (prev.unaryP st) fun l st => prev.mulLoop l st
  mulLoop := fun left st =>
    if ["*", "/", "%"].contains (curTok st) then
      let (op, st) := consumeTok st
      pbind (prev.unaryP st) fun r st =>
      prev.mulLoop (.binary op left r) st
    else (st, .ok left)
  /- `parseUnaryExpression` (prefix `-`, `!`, `++`, `--`). -/
  unaryP := fun st =>
    if ["-", "!", "++", "--"].contains (curTok st) then
      let (op, st) := consumeTok st
      pbind (prev.unaryP st) fun operand st =>
      (st, .ok (.unary op operand))
    else prev.postfixP st
  /- `parsePostfixExpression` and its loop: indexing, calls, member
  access. -/
  postfixP := fun st => pbind (prev.primaryP st) fun l st => prev.postfixLoop l st
  postfixLoop := fun left st =>
    if curTok st == "[" then
      let (_, st) := consumeTok st
      pbind (prev.exprP st) fun idx st =>
      pbind (expectTok st "]") fun _ st =>
      prev.postfixLoop (.arrayAccess left idx) st
    else if curTok st == "(" then
      let (_, st) := consumeTok st
      pbind (prev.argsP st) fun args st =>
      pbind (expectTok st ")") fun _ st =>
      prev.postfixLoop (.call left args) st
    else if curTok st == "." then
      let (_, st) := consumeTok st
      let (property, st) := consumeTok st
      prev.postfixLoop (.propAccess left property) st
    else (st, .ok left)
  /- `parseArgumentList`. -/
  argsP := fun st =>
    if curTok st == ")" then (st, .ok [])
    else
      pbind (prev.exprP st) fun a st =>
      let st := if curTok st == "," then (consumeTok st).2 else st
      pbind (prev.argsP st) fun rest st =>
      (st, .ok (a :: rest))
  /- `parsePrimaryExpression`, with the dispatch order of the source. -/
  primaryP := fun st =>
    let t := curTok st
    if t == "(" then
      let (_, st) := consumeTok st
      pbind (prev.exprP st) fun e st =>
      pbind (expectTok st ")") fun _ st =>
      (st, .ok e)
    else if t == "[" then prev.arrayLitP st
    else if t == lbraceS then prev.objectLitP st
    else if t == quoteS || t == aposS then prev.stringLitP st
    else if isNumberTok t then
      let (tok, st) := consumeTok st
      (st, .ok (.numberLit (parseNumTok tok) (if tok.data.contains '.' then "float" else "int")))
    else if t == "true" || t == "false" then
      let (tok, st) := consumeTok st
      (st, .ok (.boolLit (tok == "true")))
    else if t == "null" then
      let (_, st) := consumeTok st
      (st, .ok .nullLit)
    else if isIdentTok t then
      let (name, st) := consumeTok st
      (st, .ok (.ident name))
    else (st, .error ("Unexpected token: " ++ t))
  /- `parseArrayLiteral` and its element loop. -/
  arrayLitP := fun st =>
    let (_, st) := consumeTok st
    pbind (prev.arrayElems st) fun els st =>
    pbind (expectTok st "]") fun _ st =>
    (st, .ok (.arrayLit els))
  arrayElems := fun st =>
    if curTok st == "]" then (st, .ok [])
    else
      pbind (prev.exprP st) fun e st =>
      let st := if curTok st == "," then (consumeTok st).2 else st
      pbind (prev.arrayElems st) fun rest st =>
      (st, .ok (e :: rest))
  /- `parseObjectLiteral` and its property loop. -/
  objectLitP := fun st =>
    let (_, st) := consumeTok st
    pbind (prev.objectProps st) fun props st =>
    pbind (expectTok st rbraceS) fun _ st =>
    (st, .ok (.objectLit props))
  objectProps := fun st =>
    if curTok st == rbraceS then (st, .ok [])
    else
      let (key, st) := consumeTok st
      pbind (expectTok st ":") fun _ st =>
      pbind (prev.exprP st) fun v st =>
      let st := if curTok st == "," then (consumeTok st).2 else st
      pbind (prev.objectProps st) fun rest st =>
      (st, .ok ((key, v) :: rest))
  /- `parseStringLiteral`: consume the opening quote, concatenate
  tokens until the matching quote (whitespace was already discarded by
  the tokenizer), then expect the closing quote.  An unterminated
  literal loops in the source; here it exhausts the fuel. -/
  stringLitP := fun st =>
    let (q, st) := consumeTok st
    pbind (prev.stringBody q "" st) fun value st =>
    (st, .ok (.stringLit value))
  stringBody := fun q acc st =>
    if curTok st == q then
      pbind (expectTok st q) fun _ st => (st, .ok acc)
    else
      let (c, st) := consumeTok st
      prev.stringBody q (acc ++ c) st

/-- The parser at a given amount of fuel. -/
def pF : Nat → PFuns := fun n => Nat.rec pBase (fun _ p => pStep p) n

/-- The `parseProgram` at a given amount of fuel. -/
def pProgram (fuel : Nat) (st : PState) : PState × List Stmt := (pF fuel).program st

/-- The `HackScriptParser.parse`: tokenize, reset the cursor and the
diagnostics, parse a whole program. -/
def parse (fuel : Nat) (code : String) : List Stmt × List CompileError :=
  let r := pProgram fuel ⟨tokenize code, 0, []⟩
  (r.2, r.1.errors)

/- ## Runtime values -/

/-- The runtime value universe of the interpreter (JS values it can
produce): numbers, strings, booleans, `null`, `undefined`, arrays and
plain objects.  Arrays and objects are JS references; the interpreter
never mutates them in place (there is no element or property
assignment), so pure lists are a faithful carrier. -/
inductive Value where
  | num (n : JsNumber)
  | str (s : String)
  | bool (b : Bool)
  | null
  | undef
  | arr (elements : List Value)
  | obj (fields : List (String × Value))

def isUndefV : Value → Bool
  | .undef => true
  | _ => false

mutual

/-- The `valueToString` of the interpreter: the stringification used by
`print`, `println` and `toString`. -/
def valueToString : Value → String
  | .null => "null"
  | .undef => "undefined"
  | .str s => s
  | .bool b => if b then "true" else "false"
  | .arr es => "[" ++ String.intercalate ", " (valueToStringList es) ++ "]"
  | .obj fs => jsonRender (.obj fs)
  | .num n => JsNumber.numToString n

def valueToStringList : List Value → List String
  | [] => []
  | v :: vs => valueToString v :: valueToStringList vs

/-- The `JSON.stringify` as the source applies it to plain objects: strings
are quoted (escape sequences are not modelled; no theorem stringifies a
string that needs them), the special numbers become `null`,
`undefined`-valued fields are omitted and `undefined` array elements
become `null`. -/
def jsonRender : Value → String
  | .null => "null"
  | .undef => "null"
  | .str s => quoteS ++ s ++ quoteS
  | .bool b => if b then "true" else "false"
  | .num n =>
    match n with
    | .rat q => JsNumber.numToString (.rat q)
    | _ => "null"
  | .arr es => "[" ++ String.intercalate "," (jsonRenderList es) ++ "]"
  | .obj fs => lbraceS ++ String.intercalate "," (jsonRenderFields fs) ++ rbraceS

def jsonRenderList : List Value → List String
  | [] => []
  | v :: vs => jsonRender v :: jsonRenderList vs

def jsonRenderFields : List (String × Value) → List String
  | [] => []
  | (k, v) :: rest =>
    if isUndefV v then jsonRenderFields rest
    else (quoteS ++ k ++ quoteS ++ ":" ++ jsonRender v) :: jsonRenderFields rest

/-- JS `String(v)` / `ToString`, used by the `+` coercion and by array
joining: arrays join their elements with a comma, `null` and
`undefined` elements joining as empty strings; objects give
`[object Object]`. -/
def jsToStr : Value → String
  | .num n => JsNumber.numToString n
  | .str s => s
  | .bool b => if b then "true" else "false"
  | .null => "null"
  | .undef => "undefined"
  | .arr es => String.intercalate "," (jsToStrElems es)
  | .obj _ => "[object Object]"

def jsToStrElems : List Value → List String
  | [] => []
  | v :: vs =>
    (match v with
     | .null => ""
     | .undef => ""
     | w => jsToStr w) :: jsToStrElems vs

end

/-- JS `ToPrimitive` as the arithmetic operators need it: arrays and
objects become their string form, every other value is already
primitive. -/
def toPrimV : Value → Value
  | .arr es => .str (jsToStr (.arr es))
  | .obj _ => .str "[object Object]"
  | v => v

/-- JS `Number(string)`: surrounding whitespace is trimmed, the empty
string is 0, otherwise an optional sign followed by a decimal form
(`12`, `1.5`, `.5`, `5.`); anything else is NaN.  (Hexadecimal and
exponent forms are not modelled; no theorem coerces such a string.) -/
def strToNumber (s : String) : JsNumber :=
  let cs := s.data.dropWhile isWsChar
  let cs := (cs.reverse.dropWhile isWsChar).reverse
  match cs with
  | [] => .rat 0
  | _ =>
    let p := match cs with
      | '-' :: r => (true, r)
      | '+' :: r => (false, r)
      | r => (false, r)
    let ip := p.2.takeWhile Char.isDigit
    let rest := p.2.drop ip.length
    match rest with
    | [] =>
      if ip.isEmpty then .nan
      else .rat (if p.1 then qNeg (mkRat (digitsToNat ip) 1) else mkRat (digitsToNat ip) 1)
    | '.' :: fr =>
      let fp := fr.takeWhile Char.isDigit
      if !(fr.drop fp.length).isEmpty then .nan
      else if ip.isEmpty && fp.isEmpty then .nan
      else
        let q := mkRat (digitsToNat ip * 10 ^ fp.length + digitsToNat fp) (10 ^ fp.length)
        .rat (if p.1 then qNeg q else q)
    | _ => .nan

/-- JS `ToNumber`. -/
def jsToNumber (v : Value) : JsNumber :=
  match toPrimV v with
  | .num n => n
  | .null => .rat 0
  | .undef => .nan
  | .bool b => .rat (if b then 1 else 0)
  | .str s => strToNumber s
  | _ => .nan

/-- JS `+`: if either operand is a string after `ToPrimitive`, the
result is string concatenation, otherwise numeric addition. -/
def jsAdd (l r : Value) : Value :=
  match toPrimV l, toPrimV r with
  | .str a, rp => .str (a ++ jsToStr rp)
  | lp, .str b => .str (jsToStr lp ++ b)
  | lp, rp => .num (JsNumber.addN (jsToNumber lp) (jsToNumber rp))

/-- JS `<`: lexicographic when both primitives are strings, numeric
otherwise (NaN comparisons are false). -/
def jsLess (l r : Value) : Bool :=
  match toPrimV l, toPrimV r with
  | .str a, .str b => decide (a < b)
  | lp, rp => JsNumber.ltN (jsToNumber lp) (jsToNumber rp)

/-- JS `>`. -/
def jsGreater (l r : Value) : Bool :=
  match toPrimV l, toPrimV r with
  | .str a, .str b => decide (b < a)
  | lp, rp => JsNumber.gtN (jsToNumber lp) (jsToNumber rp)

/-- JS `<=` (for strings this is the negation of the reversed `<`). -/
def jsLessEq (l r : Value) : Bool :=
  match toPrimV l, toPrimV r with
  | .str a, .str b => !decide (b < a)
  | lp, rp => JsNumber.leN (jsToNumber lp) (jsToNumber rp)

/-- JS `>=`. -/
def jsGreaterEq (l r : Value) : Bool :=
  match toPrimV l, toPrimV r with
  | .str a, .str b => !decide (a < b)
  | lp, rp => JsNumber.geN (jsToNumber lp) (jsToNumber rp)

/-- JS `===`.  Composite values (arrays, objects) compare by reference
in JS; the two operands of a comparison in this interpreter always come
from separate evaluations and are therefore distinct references, which
this pure model renders as `false`.  (Comparing one reference with
itself is not expressible here; no theorem relies on it.) -/
def strictEqV : Value → Value → Bool
  | .num a, .num b =>
    match a, b with
    | .nan, _ => false
    | _, .nan => false
    | x, y => x == y
  | .str a, .str b => a == b
  | .bool a, .bool b => a == b
  | .null, .null => true
  | .undef, .undef => true
  | _, _ => false

/-- The `isTruthy` of the interpreter: null and undefined are false,
booleans are themselves, a number is true unless it is strictly equal
to 0 (NaN is truthy), a string is true unless empty, everything else is
true. -/
def isTruthy : Value → Bool
  | .null => false
  | .undef => false
  | .bool b => b
  | .num n =>
    match n with
    | .rat q => !decide (q = 0)
    | _ => true
  | .str s => !s.isEmpty
  | .arr _ => true
  | .obj _ => true

/-- The `getValueType` of the interpreter.  `typeof undefined` is
`"undefined"`, which falls to the default branch of the source switch
and yields the object descriptor. -/
def getValueType : Value → TypeInfo
  | .null => .mk "null" true true []
  | .num n =>
    if JsNumber.isIntN n then (getPrimitiveType "int").getD (.mk "int" true false [])
    else (getPrimitiveType "float").getD (.mk "float" true false [])
  | .str _ => (getPrimitiveType "string").getD (.mk "string" true false [])
  | .bool _ => (getPrimitiveType "bool").getD (.mk "bool" true false [])
  | .arr _ => .mk "Array<any>" false false []
  | .obj _ => .mk "object" false false []
  | .undef => .mk "object" false false []

/-- The `executeBinaryExpression` after both operands are evaluated.  The
source's `==`/`!=` are implemented with the strict JS operators. -/
def applyBinary (op : String) (l r : Value) : Except String Value :=
  if op == "+" then .ok (jsAdd l r)
  else if op == "-" then .ok (.num (JsNumber.subN (jsToNumber l) (jsToNumber r)))
  else if op == "*" then .ok (.num (JsNumber.mulN (jsToNumber l) (jsToNumber r)))
  else if op == "/" then .ok (.num (JsNumber.divN (jsToNumber l) (jsToNumber r)))
  else if op == "%" then .ok (.num (JsNumber.remN (jsToNumber l) (jsToNumber r)))
  else if op == "==" then .ok (.bool (strictEqV l r))
  else if op == "!=" then .ok (.bool (!strictEqV l r))
  else if op == "<" then .ok (.bool (jsLess l r))
  else if op == ">" then .ok (.bool (jsGreater l r))
  else if op == "<=" then .ok (.bool (jsLessEq l r))
  else if op == ">=" then .ok (.bool (jsGreaterEq l r))
  else if op == "&&" then .ok (if isTruthy l then r else l)
  else if op == "||" then .ok (if isTruthy l then l else r)
  else .error ("Unknown binary operator: " ++ op)

/-- The `executeUnaryExpression` after the operand is evaluated.  Prefix
`++` is JS `operand + 1` (string concatenation applies), prefix `--`
is numeric subtraction. -/
def applyUnary (op : String) (v : Value) : Except String Value :=
  if op == "-" then .ok (.num (JsNumber.negN (jsToNumber v)))
  else if op == "!" then .ok (.bool (!isTruthy v))
  else if op == "++" then .ok (jsAdd v (.num (.rat 1)))
  else if op == "--" then .ok (.num (JsNumber.subN (jsToNumber v) (.rat 1)))
  else .error ("Unknown unary operator: " ++ op)

/- ## Environments -/

/-- A variable entry of an `ExecutionContext`:
`{ type, value, mutable }`. -/
structure Binding where
  ty : TypeInfo
  value : Value
  mutable : Bool

/-- An entry of an `ExecutionContext`'s function map: a user-defined
function (name, parameters, return type, body) or one of the built-in
host functions, identified by name. -/
inductive FuncDef where
  | user (name : String) (params : List (String × TypeInfo × Option Expr))
      (returnType : TypeInfo) (body : Stmt)
  | builtin (name : String)

/-- One `ExecutionContext`: its variable map, its function map and the
arena index of its parent (none at the root). -/
structure Env where
  vars : List (String × Binding)
  funcs : List (String × FuncDef)
  parent : Option Nat

/-- The mutable interpreter state: the context arena (the root context
is index 0; a context's parent always has a smaller index), the output
buffer and the warnings buffer (which the source never fills). -/
structure InterpState where
  envs : List Env
  output : List String
  warnings : List String

/-- The `Map.get`. -/
def lookupL {α : Type} (l : List (String × α)) (k : String) : Option α :=
  (l.find? (fun p => p.1 == k)).map (fun p => p.2)

/-- The `Map.set`: replace in place, or append preserving insertion
order. -/
def setEntryL {α : Type} (l : List (String × α)) (k : String) (v : α) : List (String × α) :=
  match l with
  | [] => [(k, v)]
  | (k2, v2) :: rest => if k2 == k then (k, v) :: rest else (k2, v2) :: setEntryL rest k v

def emptyEnv : Env := ⟨[], [], none⟩

def getEnv (st : InterpState) (i : Nat) : Env := st.envs.getD i emptyEnv

def setEnv (st : InterpState) (i : Nat) (e : Env) : InterpState :=
  { st with envs := st.envs.set i e }

/-- The `context.variables.set name b`. -/
def envSetVar (st : InterpState) (i : Nat) (name : String) (b : Binding) : InterpState :=
  setEnv st i { getEnv st i with vars := setEntryL (getEnv st i).vars name b }

/-- The `context.functions.set name f`. -/
def envSetFunc (st : InterpState) (i : Nat) (name : String) (f : FuncDef) : InterpState :=
  setEnv st i { getEnv st i with funcs := setEntryL (getEnv st i).funcs name f }

/-- Allocate a fresh child context in the arena. -/
def allocEnv (st : InterpState) (parent : Option Nat) : Nat × InterpState :=
  (st.envs.length, { st with envs := st.envs ++ [⟨[], [], parent⟩] })

/-- The parent-chain walk of `resolveVariableReference`, with an
explicit bound on the chain length (a parent always has a smaller arena
index, so `envs.length + 1` steps always reach the root). -/
def resolveVarAux : Nat → InterpState → Option Nat → String → Option (Nat × Binding)
  | 0, _, _, _ => none
  | _+1, _, none, _ => none
  | bound+1, st, some i, name =>
    match lookupL (getEnv st i).vars name with
    | some b => some (i, b)
    | none => resolveVarAux bound st (getEnv st i).parent name

/-- The `resolveVariableReference`, as the found context index and
binding. -/
def resolveVarChain (st : InterpState) (envId : Nat) (name : String) : Option (Nat × Binding) :=
  resolveVarAux (st.envs.length + 1) st (some envId) name

/-- The `resolveFunction`-style walk of the function maps. -/
def resolveFuncAux : Nat → InterpState → Option Nat → String → Option FuncDef
  | 0, _, _, _ => none
  | _+1, _, none, _ => none
  | bound+1, st, some i, name =>
    match lookupL (getEnv st i).funcs name with
    | some f => some f
    | none => resolveFuncAux bound st (getEnv st i).parent name

/-- The `resolveFunction` (returns null when unresolved). -/
def resolveFuncChain (st : InterpState) (envId : Nat) (name : String) : Option FuncDef :=
  resolveFuncAux (st.envs.length + 1) st (some envId) name

/-- The `resolveVariable`: the bound value, or the runtime error. -/
def lookupVar (st : InterpState) (envId : Nat) (name : String) : Except String Value :=
  match resolveVarChain st envId name with
  | some p => .ok p.2.value
  | none => .error ("Undefined variable: " ++ name)

/-- The identifier branch of `executeAssignmentExpression`: resolve the
existing binding through the chain (this never creates a binding), fail
on an unresolved name or an immutable binding, otherwise overwrite the
found binding's value in place and return the assigned value. -/
def assignVar (st : InterpState) (envId : Nat) (name : String) (v : Value) :
    InterpState × Except String Value :=
  match resolveVarChain st envId name with
  | none => (st, .error ("Undefined variable: " ++ name))
  | some (i, b) =>
    if !b.mutable then (st, .error ("Cannot assign to immutable variable: " ++ name))
    else (envSetVar st i name { b with value := v }, .ok v)

/-- The `getDefaultValue`.  The source's default branch returns null whether
or not the type is nullable (both arms return null); the float zero
`0.0` is the same JS number as the int zero. -/
def getDefaultValue (ty : TypeInfo) : Value :=
  if ty.name == "int" then .num (.rat 0)
  else if ty.name == "float" then .num (.rat 0)
  else if ty.name == "string" then .str ""
  else if ty.name == "bool" then .bool false
  else if ty.name == "char" then .str (String.mk [Char.ofNat 0])
  else .null

/- ## Array and property access -/

/-- A canonical array-index property name: all digits with no leading
zero (JS `arr["01"]` is not element 1). -/
def natOfCanonical (p : String) : Option Nat :=
  match p.data with
  | [] => none
  | cs =>
    if cs.all Char.isDigit && (cs == ['0'] || cs.headD ' ' != '0') then some (digitsToNat cs)
    else none

/-- JS `array[index]` for a numeric index that already passed the
bounds test: an in-range integer yields the stored element, any other
number (a fraction, NaN) is not a canonical property key and yields
`undefined`. -/
def jsElementAt (elems : List Value) (n : JsNumber) : Value :=
  match n with
  | .rat q =>
    if q.den == 1 && decide (0 ≤ q.num) && decide (q.num < (elems.length : ℤ)) then
      elems.getD q.num.toNat .undef
    else .undef
  | _ => Value.undef

/-- The `executeArrayAccess` after both subexpressions are evaluated: fault
on a non-array target, fault when the index is not a number or compares
below 0 or at/above the length (NaN passes both comparisons), otherwise
index. -/
def arrayIndexJs (av iv : Value) : Except String Value :=
  match av with
  | .arr elems =>
    match iv with
    | .num n =>
      if JsNumber.ltN n (.rat 0) || JsNumber.geN n (.rat (mkRat elems.length 1)) then
        .error "Array index out of bounds"
      else .ok (jsElementAt elems n)
    | _ => .error "Array index out of bounds"
  | _ => .error "Array access on non-array value"

/-- The `executePropertyAccess` after the target is evaluated: fault on
null/undefined, then JS property lookup on the data the interpreter can
produce — own fields of object literals, `length` and canonical indices
of arrays and strings; host methods are not modelled and read as
`undefined` (no theorem touches them). -/
def propAccessJs (v : Value) (prop : String) : Except String Value :=
  match v with
  | .null => .error "Property access on null or undefined"
  | .undef => .error "Property access on null or undefined"
  | .obj fields => .ok ((lookupL fields prop).getD .undef)
  | .arr elems =>
    if prop == "length" then .ok (.num (.rat (mkRat elems.length 1)))
    else
      match natOfCanonical prop with
      | some i => .ok (elems.getD i .undef)
      | none => .ok .undef
  | .str s =>
    if prop == "length" then .ok (.num (.rat (mkRat s.length 1)))
    else
      match natOfCanonical prop with
      | some i =>
        .ok (match s.data.drop i with
          | c :: _ => .str (String.mk [c])
          | [] => .undef)
      | none => .ok .undef
  | _ => .ok Value.undef

/- ## Built-in functions -/

/-- JS `parseInt` on the stringified argument: skip whitespace, read an
optional sign and leading digits; null when no digit is read (radix
prefixes are not modelled). -/
def parseIntB (v : Value) : Value :=
  let cs := (jsToStr v).data.dropWhile isWsChar
  let p := match cs with
    | '-' :: r => (true, r)
    | '+' :: r => (false, r)
    | r => (false, r)
  let ds := p.2.takeWhile Char.isDigit
  if ds.isEmpty then .null
  else .num (.rat (if p.1 then qNeg (mkRat (digitsToNat ds) 1) else mkRat (digitsToNat ds) 1))

/-- JS `parseFloat` on the stringified argument: an optional sign and a
leading decimal form; null when nothing numeric is read (exponents are
not modelled). -/
def parseFloatB (v : Value) : Value :=
  let cs := (jsToStr v).data.dropWhile isWsChar
  let p := match cs with
    | '-' :: r => (true, r)
    | '+' :: r => (false, r)
    | r => (false, r)
  let ip := p.2.takeWhile Char.isDigit
  let rest := p.2.drop ip.length
  let fp := match rest with
    | '.' :: fr => fr.takeWhile Char.isDigit
    | _ => []
  if ip.isEmpty && fp.isEmpty then .null
  else
    let q := mkRat (digitsToNat ip * 10 ^ fp.length + digitsToNat fp) (10 ^ fp.length)
    .num (.rat (if p.1 then qNeg q else q))

/-- The implementations of the seven built-ins installed by
`initializeBuiltins`: `print`/`println` join the stringified arguments
with one space and push one output line returning undefined, `len`
faults unless given a string or an array, `type` and `toString` reuse
`getValueType` and `valueToString`, `parseInt`/`parseFloat` return null
instead of NaN.  A missing argument reads as `undefined`, as JS rest
arguments do. -/
def applyBuiltin (name : String) (args : List Value) (st : InterpState) :
    InterpState × Except String Value :=
  if name == "print" || name == "println" then
    ({ st with output := st.output ++ [String.intercalate " " (args.map valueToString)] },
      .ok .undef)
  else if name == "len" then
    match args.getD 0 .undef with
    | .str s => (st, .ok (.num (.rat (mkRat s.length 1))))
    | .arr es => (st, .ok (.num (.rat (mkRat es.length 1))))
    | _ => (st, .error "len() requires string or array argument")
  else if name == "type" then (st, .ok (.str (getValueType (args.getD 0 .undef)).name))
  else if name == "toString" then (st, .ok (.str (valueToString (args.getD 0 .undef))))
  else if name == "parseInt" then (st, .ok (parseIntB (args.getD 0 .undef)))
  else if name == "parseFloat" then (st, .ok (parseFloatB (args.getD 0 .undef)))
  else (st, .error ("Cannot execute function: " ++ name))

/- ## Evaluator -/

/-- Evaluation outcome: a runtime error (a thrown JS `Error` message) or
fuel exhaustion, which in the source is a still-running loop or an
unbounded recursion, never an error. -/
inductive Fault where
  | err (msg : String)
  | fuelOut
  deriving DecidableEq

abbrev EResult := InterpState × Except Fault Value

/-- The `expr.callee.name`: a non-identifier callee has an undefined
`.name`, which the failing lookup then interpolates as
`"undefined"`. -/
def calleeName : Expr → String
  | .ident n => n
  | _ => "undefined"

/-- The record of evaluator operations at one fuel level (statements,
statement lists, expressions, expression lists, object properties,
function invocation, parameter binding, and the two loop forms). -/
structure IFuns where
  stmt : Stmt → Nat → InterpState → EResult
  stmtSeq : List Stmt → Value → Nat → InterpState → EResult
  expr : Expr → Nat → InterpState → EResult
  exprSeq : List Expr → Nat → InterpState → InterpState × Except Fault (List Value)
  propsSeq : List (String × Expr) → Nat → InterpState →
    InterpState × Except Fault (List (String × Value))
  callF : FuncDef → List Value → Nat → InterpState → EResult
  bindParams : List (String × TypeInfo × Option Expr) → List Value → Nat → Nat →
    InterpState → InterpState × Except Fault Unit
  whileLoop : Expr → Stmt → Value → Nat → InterpState → EResult
  forLoop : Expr → Stmt → Expr → Value → Nat → InterpState → EResult

/-- Out-of-fuel evaluator record. -/
def iBase : IFuns where
  stmt := fun _ _ st => (st, .error .fuelOut)
  stmtSeq := fun _ _ _ st => (st, .error .fuelOut)
  expr := fun _ _ st => (st, .error .fuelOut)
  exprSeq := fun _ _ st => (st, .error .fuelOut)
  propsSeq := fun _ _ st => (st, .error .fuelOut)
  callF := fun _ _ _ st => (st, .error .fuelOut)
  bindParams := fun _ _ _ _ st => (st, .error .fuelOut)
  whileLoop := fun _ _ _ _ st => (st, .error .fuelOut)
  forLoop := fun _ _ _ _ _ st => (st, .error .fuelOut)

/-- One fuel level of the evaluator, translated method by method from
`HackScriptInterpreterV2`; every recursive call goes through `prev`. -/
def iStep (prev : IFuns) : IFuns where
  /- `executeStatement`, dispatching exactly as the source switch. -/
  stmt := fun s envId st =>
    match s with
    | .varDecl _ name tyAnn initE mbl =>
      /- `executeVariableDeclaration`: evaluate the initializer in the
      current context or take the type's zero value, then install the
      binding; the JS method returns undefined. -/
      (match initE with
       | some e =>
         match prev.expr e envId st with
         | (st, .error f) => (st, .error f)
         | (st, .ok v) => (envSetVar st envId name ⟨tyAnn, v, mbl⟩, .ok .undef)
       | none => (envSetVar st envId name ⟨tyAnn, getDefaultValue tyAnn, mbl⟩, .ok .undef))
    | .funcDecl name params retTy body =>
      /- `executeFunctionDeclaration`. -/
      (envSetFunc st envId name (.user name params retTy body), .ok .undef)
    | .exprStmt e => prev.expr e envId st
    | .block body =>
      /- `executeBlockStatement`: fresh child context, result of the
      last inner statement (null for an empty block). -/
      let a := allocEnv st (some envId)
      prev.stmtSeq body .null a.1 a.2
    | .ifStmt cond cons alt =>
      (match prev.expr cond envId st with
       | (st, .error f) => (st, .error f)
       | (st, .ok c) =>
         if isTruthy c then prev.stmt cons envId st
         else
           match alt with
           | some a => prev.stmt a envId st
           | none => (st, .ok .null))
    | .forStmt initS cond update body =>
      /- `executeForStatement`: own child context holding the init
      declaration. -/
      let a := allocEnv st (some envId)
      (match prev.stmt initS a.1 a.2 with
       | (st, .error f) => (st, .error f)
       | (st, .ok _) => prev.forLoop cond body update .null a.1 st)
    | .whileStmt cond body => prev.whileLoop cond body .null envId st
    | .returnStmt v =>
      /- `executeReturnStatement`: just the value of the expression (or
      null); no control transfer. -/
      (match v with
       | some e => prev.expr e envId st
       | none => (st, .ok .null))
  stmtSeq := fun l acc envId st =>
    match l with
    | [] => (st, .ok acc)
    | s :: rest =>
      match prev.stmt s envId st with
      | (st, .error f) => (st, .error f)
      | (st, .ok v) => prev.stmtSeq rest v envId st
  /- `executeExpression`. -/
  expr := fun e envId st =>
    match e with
    | .numberLit v _ => (st, .ok (.num v))
    | .stringLit s => (st, .ok (.str s))
    | .boolLit b => (st, .ok (.bool b))
    | .nullLit => (st, .ok .null)
    | .arrayLit els =>
      (match prev.exprSeq els envId st with
       | (st, .error f) => (st, .error f)
       | (st, .ok vs) => (st, .ok (.arr vs)))
    | .objectLit props =>
      /- the source assigns each key in order into a fresh object, so a
      later duplicate key overwrites an earlier one -/
      (match prev.propsSeq props envId st with
       | (st, .error f) => (st, .error f)
       | (st, .ok kvs) =>
         (st, .ok (.obj (kvs.foldl (fun acc kv => setEntryL acc kv.1 kv.2) []))))
    | .ident name =>
      (match lookupVar st envId name with
       | .ok v => (st, .ok v)
       | .error m => (st, .error (.err m)))
    | .binary op l r =>
      (match prev.expr l envId st with
       | (st, .error f) => (st, .error f)
       | (st, .ok lv) =>
         match prev.expr r envId st with
         | (st, .error f) => (st, .error f)
         | (st, .ok rv) =>
           match applyBinary op lv rv with
           | .ok v => (st, .ok v)
           | .error m => (st, .error (.err m)))
    | .unary op o =>
      (match prev.expr o envId st with
       | (st, .error f) => (st, .error f)
       | (st, .ok v) =>
         match applyUnary op v with
         | .ok w => (st, .ok w)
         | .error m => (st, .error (.err m)))
    | .assign lhs rhs =>
      /- `executeAssignmentExpression`: the right side is evaluated
      first; only a plain identifier target mutates a binding, any
      other target shape is skipped and the value is returned. -/
      (match prev.expr rhs envId st with
       | (st, .error f) => (st, .error f)
       | (st, .ok v) =>
         match lhs with
         | .ident name =>
           (match assignVar st envId name v with
            | (st, .ok w) => (st, .ok w)
            | (st, .error m) => (st, .error (.err m)))
         | _ => (st, .ok v))
    | .call callee args =>
      /- `executeFunctionCall`: arguments are evaluated before the
      function is resolved. -/
      (match prev.exprSeq args envId st with
       | (st, .error f) => (st, .error f)
       | (st, .ok argv) =>
         match resolveFuncChain st envId (calleeName callee) with
         | none => (st, .error (.err ("Unknown function: " ++ calleeName callee)))
         | some f => prev.callF f argv envId st)
    | .arrayAccess objE idxE =>
      (match prev.expr objE envId st with
       | (st, .error f) => (st, .error f)
       | (st, .ok av) =>
         match prev.expr idxE envId st with
         | (st, .error f) => (st, .error f)
         | (st, .ok iv) =>
           match arrayIndexJs av iv with
           | .ok v => (st, .ok v)
           | .error m => (st, .error (.err m)))
    | .propAccess objE prop =>
      (match prev.expr objE envId st with
       | (st, .error f) => (st, .error f)
       | (st, .ok ov) =>
         match propAccessJs ov prop with
         | .ok v => (st, .ok v)
         | .error m => (st, .error (.err m)))
  exprSeq := fun l envId st =>
    match l with
    | [] => (st, .ok [])
    | e :: rest =>
      match prev.expr e envId st with
      | (st, .error f) => (st, .error f)
      | (st, .ok v) =>
        match prev.exprSeq rest envId st with
        | (st, .error f) => (st, .error f)
        | (st, .ok vs) => (st, .ok (v :: vs))
  propsSeq := fun l envId st =>
    match l with
    | [] => (st, .ok [])
    | (k, e) :: rest =>
      match prev.expr e envId st with
      | (st, .error f) => (st, .error f)
      | (st, .ok v) =>
        match prev.propsSeq rest envId st with
        | (st, .error f) => (st, .error f)
        | (st, .ok kvs) => (st, .ok ((k, v) :: kvs))
  /- `executeFunctionCall` dispatch: a builtin implementation runs
  directly; `executeUserFunction` allocates a context whose parent is
  the CALLING context, binds parameters, then runs the body. -/
  callF := fun f argv callerEnv st =>
    match f with
    | .builtin name =>
      (match applyBuiltin name argv st with
       | (st, .ok v) => (st, .ok v)
       | (st, .error m) => (st, .error (.err m)))
    | .user _ params _ body =>
      let a := allocEnv st (some callerEnv)
      (match prev.bindParams params argv a.1 callerEnv a.2 with
       | (st, .error f) => (st, .error f)
       | (st, .ok _) => prev.stmt body a.1 st)
  /- parameter binding of `executeUserFunction`: positional argument,
  else the declared default expression evaluated in the CALLING
  context, else the type's zero value; parameters are always bound
  mutable. -/
  bindParams := fun params argv funcEnv callerEnv st =>
    match params with
    | [] => (st, .ok ())
    | (pname, pty, pdflt) :: rest =>
      match argv with
      | a :: argRest =>
        prev.bindParams rest argRest funcEnv callerEnv
          (envSetVar st funcEnv pname ⟨pty, a, true⟩)
      | [] =>
        match pdflt with
        | some e =>
          (match prev.expr e callerEnv st with
           | (st, .error f) => (st, .error f)
           | (st, .ok v) =>
             prev.bindParams rest [] funcEnv callerEnv
               (envSetVar st funcEnv pname ⟨pty, v, true⟩))
        | none =>
          prev.bindParams rest [] funcEnv callerEnv
            (envSetVar st funcEnv pname ⟨pty, getDefaultValue pty, true⟩)
  /- `executeWhileStatement`: same context every iteration; result is
  the last body value (null if the body never ran). -/
  whileLoop := fun cond body acc envId st =>
    match prev.expr cond envId st with
    | (st, .error f) => (st, .error f)
    | (st, .ok c) =>
      if isTruthy c then
        match prev.stmt body envId st with
        | (st, .error f) => (st, .error f)
        | (st, .ok r) => prev.whileLoop cond body r envId st
      else (st, .ok acc)
  /- the loop of `executeForStatement`: condition, body, update. -/
  forLoop := fun cond body update acc envId st =>
    match prev.expr cond envId st with
    | (st, .error f) => (st, .error f)
    | (st, .ok c) =>
      if isTruthy c then
        match prev.stmt body envId st with
        | (st, .error f) => (st, .error f)
        | (st, .ok r) =>
          match prev.expr update envId st with
          | (st, .error f) => (st, .error f)
          | (st, .ok _) => prev.forLoop cond body update r envId st
      else (st, .ok acc)

/-- The evaluator at a given amount of fuel. -/
def iF : Nat → IFuns := fun n => Nat.rec iBase (fun _ p => iStep p) n

/-- The `executeStatement` at a given amount of fuel. -/
def execStmt (fuel : Nat) (s : Stmt) (envId : Nat) (st : InterpState) : EResult :=
  (iF fuel).stmt s envId st

/-- The statement fold of `executeAST` / `executeBlockStatement` at a
given amount of fuel: run the statements in order against one context,
returning the last statement's value (`acc` for an empty list). -/
def execStmtSeq (fuel : Nat) (l : List Stmt) (acc : Value) (envId : Nat)
    (st : InterpState) : EResult :=
  (iF fuel).stmtSeq l acc envId st

/-- The `executeExpression` at a given amount of fuel. -/
def execExpr (fuel : Nat) (e : Expr) (envId : Nat) (st : InterpState) : EResult :=
  (iF fuel).expr e envId st

/- ## Type checker -/

/-- The `inferBinaryExpressionType` on the operand types. -/
def inferBinaryTy (op : String) (lt rt : TypeInfo) : TypeInfo :=
  if ["+", "-", "*", "/", "%"].contains op && (lt.name == "float" || rt.name == "float") then
    (getPrimitiveType "float").getD (.mk "float" true false [])
  else if ["+", "-", "*", "/", "%"].contains op && (lt.name == "int" && rt.name == "int") then
    (getPrimitiveType "int").getD (.mk "int" true false [])
  else if ["+", "-", "*", "/", "%"].contains op &&
      (op == "+" && (lt.name == "string" || rt.name == "string")) then
    (getPrimitiveType "string").getD (.mk "string" true false [])
  else if ["==", "!=", "<", ">", "<=", ">="].contains op then
    (getPrimitiveType "bool").getD (.mk "bool" true false [])
  else if ["&&", "||"].contains op then
    (getPrimitiveType "bool").getD (.mk "bool" true false [])
  else .mk "unknown" false false []

/-- The `inferType`: literals map directly, a non-empty array literal takes
its first element's type, an identifier reads its binding in the ROOT
context's variable map (the checker never sees local scopes), anything
unhandled is the `unknown` sentinel. -/
def inferType (gvars : List (String × Binding)) : Expr → TypeInfo
  | .numberLit _ nty => (getPrimitiveType nty).getD (.mk "int" true false [])
  | .stringLit _ => (getPrimitiveType "string").getD (.mk "string" true false [])
  | .boolLit _ => (getPrimitiveType "bool").getD (.mk "bool" true false [])
  | .nullLit => .mk "null" true true []
  | .arrayLit [] => .mk "Array<any>" false false []
  | .arrayLit (e :: _) => createArrayType (inferType gvars e)
  | .ident name =>
    (match lookupL gvars name with
     | some b => b.ty
     | none => .mk "unknown" false false [])
  | .binary op l r => inferBinaryTy op (inferType gvars l) (inferType gvars r)
  | _ => .mk "unknown" false false []

mutual

/-- The `typeCheckStatement`: only variable declarations can produce a
diagnostic (an initializer whose inferred type is not assignable to the
annotation); function bodies and blocks recurse; an expression
statement only runs inference, which has no effect. -/
def typeCheckStmt (gvars : List (String × Binding)) : Stmt → List CompileError
  | .varDecl _ _ tyAnn initE _ =>
    (match initE with
     | some e =>
       let it := inferType gvars e
       if !isAssignable it tyAnn then
         [⟨1, 1, "Cannot assign " ++ it.name ++ " to " ++ tyAnn.name, .error⟩]
       else []
     | none => [])
  | .funcDecl _ _ _ body => typeCheckStmt gvars body
  | .block body => typeCheckStmts gvars body
  | _ => []

def typeCheckStmts (gvars : List (String × Binding)) : List Stmt → List CompileError
  | [] => []
  | s :: rest => typeCheckStmt gvars s ++ typeCheckStmts gvars rest

end

/-- The `typeCheck` over a whole program. -/
def typeCheck (gvars : List (String × Binding)) (stmts : List Stmt) : List CompileError :=
  typeCheckStmts gvars stmts

/- ## The interpreter session -/

/-- The execution result record. JS fields that are absent on a given
path are `none` (for `result`/`error`) or empty lists. -/
structure ExecutionResult where
  success : Bool
  result : Option Value
  error : Option String
  output : List String
  warnings : List String
  compileErrors : List CompileError

/-- The seven built-ins of `initializeBuiltins`, in installation
order. -/
def builtinNames : List String :=
  ["print", "println", "len", "type", "toString", "parseInt", "parseFloat"]

/-- The root context of a fresh interpreter. -/
def rootEnv : Env := ⟨[], builtinNames.map (fun n => (n, .builtin n)), none⟩

/-- A fresh interpreter session (`new HackScriptInterpreterV2()`). -/
def initState : InterpState := ⟨[rootEnv], [], []⟩

/-- The `execute`: reset the output and warning buffers, parse, return the
parse diagnostics if any, type check against the root context's
variables, return the type diagnostics if any, otherwise run the
program statements against the root context; a thrown runtime error is
caught into `success = false` with the single message and the output
buffered so far.  The final interpreter state is returned alongside for
session persistence.  (Fuel exhaustion also maps to a failure record —
a model artifact; the source would still be running — marked by the
distinguished `fuelMsg`.) -/
def execute (fuel : Nat) (code : String) (st0 : InterpState) :
    ExecutionResult × InterpState :=
  let st := { st0 with output := [], warnings := [] }
  let pr := parse fuel code
  if pr.2.length > 0 then
    (⟨false, none, none, st.output, st.warnings, pr.2⟩, st)
  else
    let tErrs := typeCheck (getEnv st 0).vars pr.1
    if tErrs.length > 0 then
      (⟨false, none, none, st.output, st.warnings, tErrs⟩, st)
    else
      match execStmtSeq fuel pr.1 .null 0 st with
      | (st1, .ok v) => (⟨true, some v, none, st1.output, st1.warnings, []⟩, st1)
      | (st1, .error (.err m)) => (⟨false, none, some m, st1.output, st1.warnings, []⟩, st1)
      | (st1, .error .fuelOut) => (⟨false, none, some fuelMsg, st1.output, st1.warnings, []⟩, st1)

/- ## Predicates used by the theorems -/

/-- The output buffer of `st2` extends that of `st1` (nothing buffered
is ever dropped or reordered). -/
def outGrows (st1 st2 : InterpState) : Prop := ∃ t, st2.output = st1.output ++ t

/-- Is this AST node a plain identifier? -/
def isIdentE : Expr → Bool
  | .ident _ => true
  | _ => false

/-- Is this runtime value a number? -/
def isNumV : Value → Bool
  | .num _ => true
  | _ => false

/-- Is this runtime value an array? -/
def isArrV : Value → Bool
  | .arr _ => true
  | _ => false

/-- The bound names of every context in the arena, in order: the shape
of the store that an assignment must not change. -/
def namesOfEnvs (st : InterpState) : List (List String) :=
  st.envs.map (fun e => e.vars.map Prod.fst)

/- ## Lemmas: the computable rational layer agrees with `ℚ` -/

theorem qAdd_eq (a b : ℚ) : qAdd a b = a + b := by
  rw [qAdd, Rat.mkRat_eq_div]
  have ha : ((a.den : ℚ)) ≠ 0 := by exact_mod_cast a.den_nz
  have hb : ((b.den : ℚ)) ≠ 0 := by exact_mod_cast b.den_nz
  conv_rhs => rw [← Rat.num_div_den a, ← Rat.num_div_den b]
  push_cast
  field_simp

theorem qNeg_eq (a : ℚ) : qNeg a = -a := by
  rw [qNeg, Rat.mkRat_eq_div]
  have ha : ((a.den : ℚ)) ≠ 0 := by exact_mod_cast a.den_nz
  conv_rhs => rw [← Rat.num_div_den a]
  push_cast
  field_simp

theorem qSub_eq (a b : ℚ) : qSub a b = a - b := by
  rw [qSub, qAdd_eq, qNeg_eq, sub_eq_add_neg]

theorem qMul_eq (a b : ℚ) : qMul a b = a * b := by
  rw [qMul, Rat.mkRat_eq_div]
  have ha : ((a.den : ℚ)) ≠ 0 := by exact_mod_cast a.den_nz
  have hb : ((b.den : ℚ)) ≠ 0 := by exact_mod_cast b.den_nz
  conv_rhs => rw [← Rat.num_div_den a, ← Rat.num_div_den b]
  push_cast
  field_simp

theorem qInv_eq (a : ℚ) : qInv a = a⁻¹ := by
  rw [qInv, Rat.inv_def', Rat.divInt_eq_div]
  rcases lt_trichotomy a.num 0 with h | h | h
  · rw [if_pos h, Rat.mkRat_eq_div]
    push_cast [Int.cast_natAbs]
    rw [abs_of_neg (show (a.num : ℚ) < 0 by exact_mod_cast h), div_neg, neg_div, neg_neg]
  · rw [if_neg (by omega), Rat.mkRat_eq_div]
    push_cast [Int.cast_natAbs, h]
    simp
  · rw [if_neg (by omega), Rat.mkRat_eq_div]
    push_cast [Int.cast_natAbs]
    rw [abs_of_pos (show (0 : ℚ) < (a.num : ℚ) by exact_mod_cast h)]

theorem qDiv_eq (a b : ℚ) : qDiv a b = a / b := by
  rw [qDiv, qMul_eq, qInv_eq, div_eq_mul_inv]

/- ## Unfolding equations of the fuelled evaluator -/

theorem iF_zero : iF 0 = iBase := rfl

theorem iF_succ (n : Nat) : iF (n+1) = iStep (iF n) := rfl

theorem execStmtSeq_zero (l : List Stmt) (acc : Value) (e : Nat) (st : InterpState) :
    execStmtSeq 0 l acc e st = (st, .error .fuelOut) := rfl

theorem execStmtSeq_nil (n : Nat) (acc : Value) (e : Nat) (st : InterpState) :
    execStmtSeq (n+1) [] acc e st = (st, .ok acc) := rfl

theorem execStmtSeq_cons (n : Nat) (s : Stmt) (rest : List Stmt) (acc : Value) (e : Nat)
    (st : InterpState) :
    execStmtSeq (n+1) (s :: rest) acc e st =
      match execStmt n s e st with
      | (st2, .error f) => (st2, .error f)
      | (st2, .ok v) => execStmtSeq n rest v e st2 := rfl

theorem execStmt_return_some (n : Nat) (e : Expr) (envId : Nat) (st : InterpState) :
    execStmt (n+1) (.returnStmt (some e)) envId st = execExpr n e envId st := rfl

theorem execStmt_return_none (n : Nat) (envId : Nat) (st : InterpState) :
    execStmt (n+1) (.returnStmt none) envId st = (st, .ok .null) := rfl

theorem execExpr_assign (n : Nat) (lhs rhs : Expr) (envId : Nat) (st : InterpState) :
    execExpr (n+1) (.assign lhs rhs) envId st =
      match execExpr n rhs envId st with
      | (st1, .error f) => (st1, .error f)
      | (st1, .ok v) =>
        match lhs with
        | .ident name =>
          (match assignVar st1 envId name v with
           | (st2, .ok w) => (st2, .ok w)
           | (st2, .error m) => (st2, .error (.err m)))
        | _ => (st1, .ok v) := rfl

/- ## The run's final value is the last executed statement's value -/

/-- If a statement fold returns a value, either the list was empty and
the value is the accumulator, or the value (and final state) is exactly
what the last executeStatement call of the fold produced. -/
theorem stmtSeq_last (l : List Stmt) :
    ∀ (fuel : Nat) (acc : Value) (e : Nat) (st st' : InterpState) (v : Value),
    execStmtSeq fuel l acc e st = (st', .ok v) →
      (l = [] ∧ st' = st ∧ v = acc) ∨
      (∃ pre lastS f1 st1, l = pre ++ [lastS] ∧ execStmt f1 lastS e st1 = (st', .ok v)) := by
  induction l with
  | nil =>
    intro fuel acc e st st' v h
    cases fuel with
    | zero => rw [execStmtSeq_zero] at h; simp at h
    | succ n =>
      rw [execStmtSeq_nil] at h
      injection h with h1 h2
      injection h2 with h3
      exact Or.inl ⟨rfl, h1.symm, h3.symm⟩
  | cons s rest ih =>
    intro fuel acc e st st' v h
    cases fuel with
    | zero => rw [execStmtSeq_zero] at h; simp at h
    | succ n =>
      rw [execStmtSeq_cons] at h
      rcases h1 : execStmt n s e st with ⟨st2, r2⟩
      rw [h1] at h
      cases r2 with
      | error f => simp at h
      | ok w =>
        rcases ih n w e st2 st' v h with ⟨hrest, hst, hv⟩ | ⟨pre, lastS, f1, st1, hsplit, hexec⟩
        · subst hrest hst hv
          exact Or.inr ⟨[], s, n, st, by simp, h1⟩
        · exact Or.inr ⟨s :: pre, lastS, f1, st1, by rw [hsplit]; rfl, hexec⟩

/-- Running a prefix of the statement list successfully, the full fold
continues from the prefix's final state (with the fuel the prefix run
left over). -/
theorem stmtSeq_split (pre : List Stmt) :
    ∀ (suf : List Stmt) (fuel : Nat) (acc v2 : Value) (e : Nat) (st st2 : InterpState),
    execStmtSeq fuel pre acc e st = (st2, .ok v2) →
    ∃ m, m ≤ fuel ∧ execStmtSeq fuel (pre ++ suf) acc e st = execStmtSeq m suf v2 e st2 := by
  induction pre with
  | nil =>
    intro suf fuel acc v2 e st st2 h
    cases fuel with
    | zero => rw [execStmtSeq_zero] at h; simp at h
    | succ n =>
      rw [execStmtSeq_nil] at h
      injection h with h1 h2
      injection h2 with h3
      subst h1 h3
      exact ⟨n + 1, le_refl _, by simp⟩
  | cons s rest ih =>
    intro suf fuel acc v2 e st st2 h
    cases fuel with
    | zero => rw [execStmtSeq_zero] at h; simp at h
    | succ n =>
      rw [execStmtSeq_cons] at h
      rcases h1 : execStmt n s e st with ⟨st3, r3⟩
      rw [h1] at h
      cases r3 with
      | error f => simp at h
      | ok w =>
        obtain ⟨m, hm, heq⟩ := ih suf n w v2 e st3 st2 h
        refine ⟨m, le_trans hm (Nat.le_succ n), ?_⟩
        rw [List.cons_append, execStmtSeq_cons, h1]
        exact heq

/- ## The output buffer only ever grows -/

theorem outGrows_refl (st : InterpState) : outGrows st st := ⟨[], by simp⟩

theorem outGrows_trans {a b c : InterpState} (h1 : outGrows a b) (h2 : outGrows b c) :
    outGrows a c := by
  obtain ⟨t1, e1⟩ := h1
  obtain ⟨t2, e2⟩ := h2
  exact ⟨t1 ++ t2, by rw [e2, e1, List.append_assoc]⟩

theorem outGrows_of_eq {st1 st2 : InterpState} (h : st2.output = st1.output) :
    outGrows st1 st2 := ⟨[], by rw [h]; simp⟩

theorem envSetVar_output (st : InterpState) (i : Nat) (n : String) (b : Binding) :
    (envSetVar st i n b).output = st.output := rfl

theorem envSetFunc_output (st : InterpState) (i : Nat) (n : String) (f : FuncDef) :
    (envSetFunc st i n f).output = st.output := rfl

theorem allocEnv_output (st : InterpState) (p : Option Nat) :
    (allocEnv st p).2.output = st.output := rfl

theorem assignVar_output (st : InterpState) (e : Nat) (n : String) (v : Value) :
    ((assignVar st e n v).1).output = st.output := by
  unfold assignVar
  cases h : resolveVarChain st e n with
  | none => rfl
  | some p =>
    obtain ⟨i, b⟩ := p
    cases hm : b.mutable <;> simp [hm, envSetVar_output]

theorem applyBuiltin_grows (name : String) (args : List Value) (st : InterpState) :
    outGrows st (applyBuiltin name args st).1 := by
  unfold applyBuiltin
  split_ifs
  · exact ⟨[String.intercalate " " (args.map valueToString)], rfl⟩
  · cases args.getD 0 .undef <;> exact outGrows_refl st
  · exact outGrows_refl st
  · exact outGrows_refl st
  · exact outGrows_refl st
  · exact outGrows_refl st
  · exact outGrows_refl st

/-- Every operation of one evaluator level can only append to the
output buffer. -/
def OutMono (F : IFuns) : Prop :=
  (∀ s e st, outGrows st (F.stmt s e st).1) ∧
  (∀ l a e st, outGrows st (F.stmtSeq l a e st).1) ∧
  (∀ ex e st, outGrows st (F.expr ex e st).1) ∧
  (∀ l e st, outGrows st (F.exprSeq l e st).1) ∧
  (∀ l e st, outGrows st (F.propsSeq l e st).1) ∧
  (∀ f a e st, outGrows st (F.callF f a e st).1) ∧
  (∀ p a fe ce st, outGrows st (F.bindParams p a fe ce st).1) ∧
  (∀ c b a e st, outGrows st (F.whileLoop c b a e st).1) ∧
  (∀ c b u a e st, outGrows st (F.forLoop c b u a e st).1)

theorem outMono_iF : ∀ n, OutMono (iF n) := by
  intro n
  induction n with
  | zero =>
    refine ⟨?_, ?_, ?_, ?_, ?_, ?_, ?_, ?_, ?_⟩ <;> intros <;> exact outGrows_refl _
  | succ n ih =>
    obtain ⟨ihS, ihSeq, ihE, ihEs, ihPs, ihC, ihB, ihW, ihF⟩ := ih
    rw [iF_succ]
    have hexpr : ∀ ex e st, outGrows st ((iStep (iF n)).expr ex e st).1 := by
      intro ex e st
      show outGrows st ((iStep (iF n)).expr ex e st).1
      cases ex with
      | numberLit v t => exact outGrows_refl st
      | stringLit s => exact outGrows_refl st
      | boolLit b => exact outGrows_refl st
      | nullLit => exact outGrows_refl st
      | arrayLit els =>
        show outGrows st ((match (iF n).exprSeq els e st with
          | (st, Except.error f) => (st, Except.error f)
          | (st, Except.ok vs) => (st, Except.ok (Value.arr vs))).1)
        rcases h1 : (iF n).exprSeq els e st with ⟨st1, r1⟩
        have g1 : outGrows st st1 := by have := ihEs els e st; rw [h1] at this; exact this
        cases r1 <;> exact g1
      | objectLit props =>
        show outGrows st ((match (iF n).propsSeq props e st with
          | (st, Except.error f) => (st, Except.error f)
          | (st, Except.ok kvs) =>
            (st, Except.ok (Value.obj (kvs.foldl (fun (acc : List (String × Value)) (kv : String × Value) => setEntryL acc kv.1 kv.2) [])))).1)
        rcases h1 : (iF n).propsSeq props e st with ⟨st1, r1⟩
        have g1 : outGrows st st1 := by have := ihPs props e st; rw [h1] at this; exact this
        cases r1 <;> exact g1
      | ident name =>
        show outGrows st ((match lookupVar st e name with
          | Except.ok v => (st, Except.ok v)
          | Except.error m => (st, .error (Fault.err m))).1)
        cases lookupVar st e name <;> exact outGrows_refl st
      | binary op l r =>
        show outGrows st ((match (iF n).expr l e st with
          | (st, Except.error f) => (st, Except.error f)
          | (st, Except.ok lv) =>
            match (iF n).expr r e st with
            | (st, Except.error f) => (st, Except.error f)
            | (st, Except.ok rv) =>
              match applyBinary op lv rv with
              | Except.ok v => (st, Except.ok v)
              | Except.error m => (st, .error (Fault.err m))).1)
        rcases h1 : (iF n).expr l e st with ⟨st1, r1⟩
        have g1 : outGrows st st1 := by have := ihE l e st; rw [h1] at this; exact this
        cases r1 with
        | error f => exact g1
        | ok lv =>
          dsimp only
          rcases h2 : (iF n).expr r e st1 with ⟨st2, r2⟩
          have g2 : outGrows st1 st2 := by have := ihE r e st1; rw [h2] at this; exact this
          cases r2 with
          | error f => exact outGrows_trans g1 g2
          | ok rv =>
            dsimp only
            cases applyBinary op lv rv <;> exact outGrows_trans g1 g2
      | unary op o =>
        show outGrows st ((match (iF n).expr o e st with
          | (st, Except.error f) => (st, Except.error f)
          | (st, Except.ok v) =>
            match applyUnary op v with
            | Except.ok w => (st, Except.ok w)
            | Except.error m => (st, .error (Fault.err m))).1)
        rcases h1 : (iF n).expr o e st with ⟨st1, r1⟩
        have g1 : outGrows st st1 := by have := ihE o e st; rw [h1] at this; exact this
        cases r1 with
        | error f => exact g1
        | ok v =>
          dsimp only
          cases applyUnary op v <;> exact g1
      | assign lhs rhs =>
        show outGrows st ((match (iF n).expr rhs e st with
          | (st, Except.error f) => (st, Except.error f)
          | (st, Except.ok v) =>
            match lhs with
            | .ident name =>
              (match assignVar st e name v with
               | (st, Except.ok w) => (st, Except.ok w)
               | (st, .error m) => (st, .error (Fault.err m)))
            | _ => (st, Except.ok v)).1)
        rcases h1 : (iF n).expr rhs e st with ⟨st1, r1⟩
        have g1 : outGrows st st1 := by have := ihE rhs e st; rw [h1] at this; exact this
        cases r1 with
        | error f => exact g1
        | ok v =>
          dsimp only
          cases lhs with
          | ident name =>
            dsimp only
            rcases h2 : assignVar st1 e name v with ⟨st2, r2⟩
            have g2 : outGrows st1 st2 := by
              have := assignVar_output st1 e name v
              rw [h2] at this
              exact outGrows_of_eq this
            cases r2 <;> exact outGrows_trans g1 g2
          | numberLit v t => exact g1
          | stringLit s => exact g1
          | boolLit b => exact g1
          | nullLit => exact g1
          | arrayLit els => exact g1
          | objectLit props => exact g1
          | binary op l r => exact g1
          | unary op o => exact g1
          | assign a b => exact g1
          | call c a => exact g1
          | arrayAccess a i => exact g1
          | propAccess a p => exact g1
      | call callee args =>
        show outGrows st ((match (iF n).exprSeq args e st with
          | (st, Except.error f) => (st, Except.error f)
          | (st, Except.ok argv) =>
            match resolveFuncChain st e (calleeName callee) with
            | none => (st, .error (.err ("Unknown function: " ++ calleeName callee)))
            | some f => (iF n).callF f argv e st).1)
        rcases h1 : (iF n).exprSeq args e st with ⟨st1, r1⟩
        have g1 : outGrows st st1 := by have := ihEs args e st; rw [h1] at this; exact this
        cases r1 with
        | error f => exact g1
        | ok argv =>
          dsimp only
          cases resolveFuncChain st1 e (calleeName callee) with
          | none => exact g1
          | some f =>
            refine outGrows_trans g1 ?_
            exact ihC f argv e st1
      | arrayAccess objE idxE =>
        show outGrows st ((match (iF n).expr objE e st with
          | (st, Except.error f) => (st, Except.error f)
          | (st, Except.ok av) =>
            match (iF n).expr idxE e st with
            | (st, Except.error f) => (st, Except.error f)
            | (st, Except.ok iv) =>
              match arrayIndexJs av iv with
              | Except.ok v => (st, Except.ok v)
              | Except.error m => (st, .error (Fault.err m))).1)
        rcases h1 : (iF n).expr objE e st with ⟨st1, r1⟩
        have g1 : outGrows st st1 := by have := ihE objE e st; rw [h1] at this; exact this
        cases r1 with
        | error f => exact g1
        | ok av =>
          dsimp only
          rcases h2 : (iF n).expr idxE e st1 with ⟨st2, r2⟩
          have g2 : outGrows st1 st2 := by have := ihE idxE e st1; rw [h2] at this; exact this
          cases r2 with
          | error f => exact outGrows_trans g1 g2
          | ok iv =>
            dsimp only
            cases arrayIndexJs av iv <;> exact outGrows_trans g1 g2
      | propAccess objE prop =>
        show outGrows st ((match (iF n).expr objE e st with
          | (st, Except.error f) => (st, Except.error f)
          | (st, Except.ok ov) =>
            match propAccessJs ov prop with
            | Except.ok v => (st, Except.ok v)
            | Except.error m => (st, .error (Fault.err m))).1)
        rcases h1 : (iF n).expr objE e st with ⟨st1, r1⟩
        have g1 : outGrows st st1 := by have := ihE objE e st; rw [h1] at this; exact this
        cases r1 with
        | error f => exact g1
        | ok ov =>
          dsimp only
          cases propAccessJs ov prop <;> exact g1
    have hstmt : ∀ s e st, outGrows st ((iStep (iF n)).stmt s e st).1 := by
      intro s e st
      cases s with
      | varDecl k name tyAnn initE mbl =>
        cases initE with
        | none => exact outGrows_of_eq (envSetVar_output ..)
        | some ex =>
          show outGrows st ((match (iF n).expr ex e st with
            | (st, Except.error f) => (st, Except.error f)
            | (st, Except.ok v) => (envSetVar st e name ⟨tyAnn, v, mbl⟩, Except.ok Value.undef)).1)
          rcases h1 : (iF n).expr ex e st with ⟨st1, r1⟩
          have g1 : outGrows st st1 := by have := ihE ex e st; rw [h1] at this; exact this
          cases r1 with
          | error f => exact g1
          | ok v => exact outGrows_trans g1 (outGrows_of_eq (envSetVar_output ..))
      | funcDecl name params retTy body => exact outGrows_of_eq (envSetFunc_output ..)
      | exprStmt ex => exact ihE ex e st
      | block body =>
        refine outGrows_trans (outGrows_of_eq (allocEnv_output st (some e))) ?_
        exact ihSeq body Value.null (allocEnv st (some e)).1 (allocEnv st (some e)).2
      | ifStmt cond cons alt =>
        show outGrows st ((match (iF n).expr cond e st with
          | (st, Except.error f) => (st, Except.error f)
          | (st, Except.ok c) =>
            if isTruthy c then (iF n).stmt cons e st
            else
              match alt with
              | some a => (iF n).stmt a e st
              | none => (st, Except.ok Value.null)).1)
        rcases h1 : (iF n).expr cond e st with ⟨st1, r1⟩
        have g1 : outGrows st st1 := by have := ihE cond e st; rw [h1] at this; exact this
        cases r1 with
        | error f => exact g1
        | ok c =>
          dsimp only
          by_cases hc : isTruthy c
          · simp only [hc, if_true]
            exact outGrows_trans g1 (ihS cons e st1)
          · simp only [hc, if_false]
            cases alt with
            | some a => exact outGrows_trans g1 (ihS a e st1)
            | none => exact g1
      | forStmt initS cond update body =>
        show outGrows st ((match (iF n).stmt initS (allocEnv st (some e)).1 (allocEnv st (some e)).2 with
          | (st2, Except.error f) => (st2, Except.error f)
          | (st2, Except.ok _) =>
            (iF n).forLoop cond body update Value.null (allocEnv st (some e)).1 st2).1)
        rcases h1 : (iF n).stmt initS (allocEnv st (some e)).1 (allocEnv st (some e)).2 with ⟨st1, r1⟩
        have g0 : outGrows st (allocEnv st (some e)).2 :=
          outGrows_of_eq (allocEnv_output st (some e))
        have g1 : outGrows st st1 := by
          refine outGrows_trans g0 ?_
          have := ihS initS (allocEnv st (some e)).1 (allocEnv st (some e)).2
          rw [h1] at this
          exact this
        cases r1 with
        | error f => exact g1
        | ok w => exact outGrows_trans g1 (ihF cond body update Value.null (allocEnv st (some e)).1 st1)
      | whileStmt cond body => exact ihW cond body Value.null e st
      | returnStmt v =>
        cases v with
        | some ex => exact ihE ex e st
        | none => exact outGrows_refl st
    refine ⟨hstmt, ?_, hexpr, ?_, ?_, ?_, ?_, ?_, ?_⟩
    · intro l a e st
      cases l with
      | nil => exact outGrows_refl st
      | cons s rest =>
        show outGrows st ((match (iF n).stmt s e st with
          | (st, Except.error f) => (st, Except.error f)
          | (st, Except.ok v) => (iF n).stmtSeq rest v e st).1)
        rcases h1 : (iF n).stmt s e st with ⟨st1, r1⟩
        have g1 : outGrows st st1 := by have := ihS s e st; rw [h1] at this; exact this
        cases r1 with
        | error f => exact g1
        | ok v => exact outGrows_trans g1 (ihSeq rest v e st1)
    · intro l e st
      cases l with
      | nil => exact outGrows_refl st
      | cons ex rest =>
        show outGrows st ((match (iF n).expr ex e st with
          | (st, Except.error f) => (st, Except.error f)
          | (st, Except.ok v) =>
            match (iF n).exprSeq rest e st with
            | (st, Except.error f) => (st, Except.error f)
            | (st, Except.ok vs) => (st, Except.ok (v :: vs))).1)
        rcases h1 : (iF n).expr ex e st with ⟨st1, r1⟩
        have g1 : outGrows st st1 := by have := ihE ex e st; rw [h1] at this; exact this
        cases r1 with
        | error f => exact g1
        | ok v =>
          dsimp only
          rcases h2 : (iF n).exprSeq rest e st1 with ⟨st2, r2⟩
          have g2 : outGrows st1 st2 := by have := ihEs rest e st1; rw [h2] at this; exact this
          cases r2 <;> exact outGrows_trans g1 g2
    · intro l e st
      cases l with
      | nil => exact outGrows_refl st
      | cons kv rest =>
        obtain ⟨k, ex⟩ := kv
        show outGrows st ((match (iF n).expr ex e st with
          | (st, Except.error f) => (st, Except.error f)
          | (st, Except.ok v) =>
            match (iF n).propsSeq rest e st with
            | (st, Except.error f) => (st, Except.error f)
            | (st, Except.ok kvs) => (st, Except.ok ((k, v) :: kvs))).1)
        rcases h1 : (iF n).expr ex e st with ⟨st1, r1⟩
        have g1 : outGrows st st1 := by have := ihE ex e st; rw [h1] at this; exact this
        cases r1 with
        | error f => exact g1
        | ok v =>
          dsimp only
          rcases h2 : (iF n).propsSeq rest e st1 with ⟨st2, r2⟩
          have g2 : outGrows st1 st2 := by have := ihPs rest e st1; rw [h2] at this; exact this
          cases r2 <;> exact outGrows_trans g1 g2
    · intro f a e st
      cases f with
      | builtin name =>
        show outGrows st ((match applyBuiltin name a st with
          | (st, Except.ok v) => (st, Except.ok v)
          | (st, .error m) => (st, .error (Fault.err m))).1)
        rcases h1 : applyBuiltin name a st with ⟨st1, r1⟩
        have g1 : outGrows st st1 := by
          have := applyBuiltin_grows name a st
          rw [h1] at this
          exact this
        cases r1 <;> exact g1
      | user fn params retTy body =>
        show outGrows st ((match (iF n).bindParams params a (allocEnv st (some e)).1 e
            (allocEnv st (some e)).2 with
          | (st2, Except.error f) => (st2, Except.error f)
          | (st2, Except.ok _) => (iF n).stmt body (allocEnv st (some e)).1 st2).1)
        rcases h1 : (iF n).bindParams params a (allocEnv st (some e)).1 e (allocEnv st (some e)).2
          with ⟨st1, r1⟩
        have g0 : outGrows st (allocEnv st (some e)).2 :=
          outGrows_of_eq (allocEnv_output st (some e))
        have g1 : outGrows st st1 := by
          refine outGrows_trans g0 ?_
          have := ihB params a (allocEnv st (some e)).1 e (allocEnv st (some e)).2
          rw [h1] at this
          exact this
        cases r1 with
        | error f => exact g1
        | ok u => exact outGrows_trans g1 (ihS body (allocEnv st (some e)).1 st1)
    · intro p a fe ce st
      cases p with
      | nil => exact outGrows_refl st
      | cons param rest =>
        obtain ⟨pname, pty, pdflt⟩ := param
        cases a with
        | cons av arest =>
          refine outGrows_trans
            (outGrows_of_eq (envSetVar_output st fe pname ⟨pty, av, true⟩)) ?_
          exact ihB rest arest fe ce (envSetVar st fe pname ⟨pty, av, true⟩)
        | nil =>
          cases pdflt with
          | none =>
            refine outGrows_trans
              (outGrows_of_eq (envSetVar_output st fe pname ⟨pty, getDefaultValue pty, true⟩)) ?_
            exact ihB rest [] fe ce (envSetVar st fe pname ⟨pty, getDefaultValue pty, true⟩)
          | some ex =>
            show outGrows st ((match (iF n).expr ex ce st with
              | (st, Except.error f) => (st, Except.error f)
              | (st, Except.ok v) =>
                (iF n).bindParams rest [] fe ce (envSetVar st fe pname ⟨pty, v, true⟩)).1)
            rcases h1 : (iF n).expr ex ce st with ⟨st1, r1⟩
            have g1 : outGrows st st1 := by have := ihE ex ce st; rw [h1] at this; exact this
            cases r1 with
            | error f => exact g1
            | ok v =>
              refine outGrows_trans g1 ?_
              refine outGrows_trans
                (outGrows_of_eq (envSetVar_output st1 fe pname ⟨pty, v, true⟩)) ?_
              exact ihB rest [] fe ce (envSetVar st1 fe pname ⟨pty, v, true⟩)
    · intro c b a e st
      show outGrows st ((match (iF n).expr c e st with
        | (st, Except.error f) => (st, Except.error f)
        | (st, Except.ok cv) =>
          if isTruthy cv then
            match (iF n).stmt b e st with
            | (st, Except.error f) => (st, Except.error f)
            | (st, Except.ok r) => (iF n).whileLoop c b r e st
          else (st, Except.ok a)).1)
      rcases h1 : (iF n).expr c e st with ⟨st1, r1⟩
      have g1 : outGrows st st1 := by have := ihE c e st; rw [h1] at this; exact this
      cases r1 with
      | error f => exact g1
      | ok cv =>
        dsimp only
        by_cases hc : isTruthy cv
        · simp only [hc, if_true]
          rcases h2 : (iF n).stmt b e st1 with ⟨st2, r2⟩
          have g2 : outGrows st1 st2 := by have := ihS b e st1; rw [h2] at this; exact this
          cases r2 with
          | error f => exact outGrows_trans g1 g2
          | ok r =>
            exact outGrows_trans g1 (outGrows_trans g2 (ihW c b r e st2))
        · simp only [hc, if_false]
          exact g1
    · intro c b u a e st
      show outGrows st ((match (iF n).expr c e st with
        | (st, Except.error f) => (st, Except.error f)
        | (st, Except.ok cv) =>
          if isTruthy cv then
            match (iF n).stmt b e st with
            | (st, Except.error f) => (st, Except.error f)
            | (st, Except.ok r) =>
              match (iF n).expr u e st with
              | (st, Except.error f) => (st, Except.error f)
              | (st, Except.ok _) => (iF n).forLoop c b u r e st
          else (st, Except.ok a)).1)
      rcases h1 : (iF n).expr c e st with ⟨st1, r1⟩
      have g1 : outGrows st st1 := by have := ihE c e st; rw [h1] at this; exact this
      cases r1 with
      | error f => exact g1
      | ok cv =>
        dsimp only
        by_cases hc : isTruthy cv
        · simp only [hc, if_true]
          rcases h2 : (iF n).stmt b e st1 with ⟨st2, r2⟩
          have g2 : outGrows st1 st2 := by have := ihS b e st1; rw [h2] at this; exact this
          cases r2 with
          | error f => exact outGrows_trans g1 g2
          | ok r =>
            dsimp only
            rcases h3 : (iF n).expr u e st2 with ⟨st3, r3⟩
            have g3 : outGrows st2 st3 := by have := ihE u e st2; rw [h3] at this; exact this
            cases r3 with
            | error f => exact outGrows_trans g1 (outGrows_trans g2 g3)
            | ok w =>
              exact outGrows_trans g1 (outGrows_trans g2 (outGrows_trans g3 (ihF c b u r e st3)))
        · simp only [hc, if_false]
          exact g1

/- ## Assignment never creates or removes a binding -/

theorem setEntryL_keys {α : Type} (k : String) (v : α) :
    ∀ (l : List (String × α)), lookupL l k ≠ none →
    (setEntryL l k v).map Prod.fst = l.map Prod.fst := by
  intro l
  induction l with
  | nil => intro h; exact absurd rfl h
  | cons p rest ih =>
    obtain ⟨k2, v2⟩ := p
    intro h
    cases hk : k2 == k with
    | true =>
      simp only [setEntryL, hk, if_true, List.map_cons]
      have hk2 : k2 = k := eq_of_beq hk
      rw [hk2]
    | false =>
      simp only [setEntryL, hk, Bool.false_eq_true, if_false, List.map_cons,
        List.cons.injEq, true_and]
      refine ih ?_
      simp only [lookupL, List.find?, hk] at h
      simpa [lookupL] using h

theorem resolveVarAux_found (name : String) :
    ∀ (bound : Nat) (st : InterpState) (oid : Option Nat) (i : Nat) (b : Binding),
    resolveVarAux bound st oid name = some (i, b) →
    lookupL (getEnv st i).vars name = some b := by
  intro bound
  induction bound with
  | zero => intro st oid i b h; simp [resolveVarAux] at h
  | succ n ih =>
    intro st oid i b h
    cases oid with
    | none => simp [resolveVarAux] at h
    | some j =>
      rw [resolveVarAux] at h
      cases hl : lookupL (getEnv st j).vars name with
      | some b2 =>
        rw [hl] at h
        injection h with h2
        injection h2 with h3 h4
        subst h3
        rw [hl, h4]
      | none =>
        rw [hl] at h
        exact ih st (getEnv st j).parent i b h

theorem resolveVarChain_found (st : InterpState) (envId : Nat) (name : String)
    (i : Nat) (b : Binding) (h : resolveVarChain st envId name = some (i, b)) :
    lookupL (getEnv st i).vars name = some b :=
  resolveVarAux_found name _ st (some envId) i b h

theorem list_map_set {α β : Type} (f : α → β) :
    ∀ (l : List α) (i : Nat) (a : α), (l.set i a).map f = (l.map f).set i (f a) := by
  intro l
  induction l with
  | nil => intro i a; rfl
  | cons x rest ih =>
    intro i a
    cases i with
    | zero => rfl
    | succ j => simp only [List.set, List.map_cons, ih]

theorem list_set_getD_self {β : Type} (d : β) :
    ∀ (l : List β) (i : Nat), l.set i (l.getD i d) = l := by
  intro l
  induction l with
  | nil => intro i; rfl
  | cons x rest ih =>
    intro i
    cases i with
    | zero => rfl
    | succ j => simp only [List.getD_cons_succ, List.set, ih]

theorem list_getD_map {α β : Type} (f : α → β) (d : α) :
    ∀ (l : List α) (i : Nat), (l.map f).getD i (f d) = f (l.getD i d) := by
  intro l
  induction l with
  | nil => intro i; rfl
  | cons x rest ih =>
    intro i
    cases i with
    | zero => rfl
    | succ j => simp only [List.map_cons, List.getD_cons_succ, ih]

/-- The identifier-assignment step never creates (or drops) a binding:
every context keeps exactly the same variable names in the same
order. -/
theorem assignVar_preserves_names (st : InterpState) (envId : Nat) (name : String)
    (v : Value) : namesOfEnvs (assignVar st envId name v).1 = namesOfEnvs st := by
  unfold assignVar
  cases h : resolveVarChain st envId name with
  | none => rfl
  | some p =>
    obtain ⟨i, bty, bv, bm⟩ := p
    dsimp only
    cases bm with
    | false => rfl
    | true =>
      show namesOfEnvs (envSetVar st i name ⟨bty, v, true⟩) = namesOfEnvs st
      have hl : lookupL (getEnv st i).vars name = some ⟨bty, bv, true⟩ :=
        resolveVarChain_found st envId name i ⟨bty, bv, true⟩ h
      have hkeys : (setEntryL (getEnv st i).vars name ⟨bty, v, true⟩).map Prod.fst =
          (getEnv st i).vars.map Prod.fst :=
        setEntryL_keys name _ _ (by rw [hl]; exact fun hc => Option.noConfusion hc)
      show namesOfEnvs (setEnv st i
        ⟨setEntryL (getEnv st i).vars name ⟨bty, v, true⟩,
          (getEnv st i).funcs, (getEnv st i).parent⟩) = namesOfEnvs st
      unfold namesOfEnvs setEnv
      dsimp only
      rw [list_map_set]
      dsimp only
      rw [hkeys]
      have hgd : (getEnv st i).vars.map Prod.fst =
          (st.envs.map (fun e => e.vars.map Prod.fst)).getD i
            (emptyEnv.vars.map Prod.fst) := by
        rw [list_getD_map (fun e => e.vars.map Prod.fst) emptyEnv]
        rfl
      rw [hgd, list_set_getD_self]

/- ## Claim theorems -/

/-- C1: for every program whose parse and type check produce zero
diagnostics and whose evaluation raises no runtime fault, `execute`
returns a record with `success = true` and `result` equal to the value
of the last executed top-level statement (the accumulator `null` for an
empty program). -/
theorem execute_success_gives_last_value
    (fuel : Nat) (code : String) (st0 : InterpState) (stmts : List Stmt)
    (st1 : InterpState) (v : Value)
    (hp : parse fuel code = (stmts, []))
    (ht : typeCheck (getEnv { st0 with output := [], warnings := [] } 0).vars stmts = [])
    (he : execStmtSeq fuel stmts .null 0 { st0 with output := [], warnings := [] } =
      (st1, .ok v)) :
    (execute fuel code st0).1.success = true ∧
    (execute fuel code st0).1.result = some v ∧
    (execute fuel code st0).1.error = none ∧
    ((stmts = [] ∧ v = .null) ∨
      ∃ pre lastS f1 stMid, stmts = pre ++ [lastS] ∧
        execStmt f1 lastS 0 stMid = (st1, .ok v)) := by
  have hrun : execute fuel code st0 =
      (⟨true, some v, none, st1.output, st1.warnings, []⟩, st1) := by
    unfold execute
    rw [hp]
    simp only [List.length_nil, gt_iff_lt, lt_self_iff_false, if_false]
    rw [ht]
    simp only [List.length_nil, gt_iff_lt, lt_self_iff_false, if_false]
    rw [he]
  refine ⟨by rw [hrun], by rw [hrun], by rw [hrun], ?_⟩
  rcases stmtSeq_last stmts fuel .null 0 _ st1 v he with ⟨h1, _, h3⟩ | ⟨pre, lastS, f1, stMid, h1, h2⟩
  · exact Or.inl ⟨h1, h3⟩
  · exact Or.inr ⟨pre, lastS, f1, stMid, h1, h2⟩

/-- Witness for C1 at the program `1; 2;`: two expression statements,
final value 2. -/
theorem execute_success_gives_last_value_witness :
    (execute 50 "1; 2;" initState).1.success = true ∧
    (execute 50 "1; 2;" initState).1.result = some (.num (.rat (mkRat 2 1))) := by
  have h := execute_success_gives_last_value 50 "1; 2;" initState
    [.exprStmt (.numberLit (.rat (mkRat 1 1)) "int"),
     .exprStmt (.numberLit (.rat (mkRat 2 1)) "int")]
    initState (.num (.rat (mkRat 2 1))) rfl rfl rfl
  exact ⟨h.1, h.2.1⟩

/-- C8: a user-defined recursive `factorial` whose body returns 1 when
`n <= 1` and otherwise `n * factorial(n - 1)`, called as
`factorial(5)`, evaluates end to end to 120 with no diagnostics and no
fault. -/
theorem factorial_five_evaluates_120 :
    (execute 1000
      "func factorial(n: int) -> int \x7b if (n <= 1) \x7b return 1; \x7d else \x7b return n * factorial(n - 1); \x7d \x7d factorial(5);"
      initState).1.success = true ∧
    (execute 1000
      "func factorial(n: int) -> int \x7b if (n <= 1) \x7b return 1; \x7d else \x7b return n * factorial(n - 1); \x7d \x7d factorial(5);"
      initState).1.result = some (.num (.rat (mkRat 120 1))) :=
  ⟨by decide, rfl⟩

/-- C9: a return statement does not terminate the enclosing body: it
only yields its expression's value (or null), the statement fold always
continues past a successfully executed statement (so statements after a
`return` still run), and a user-defined call returns the value of the
last executed body statement — demonstrated by `func f() -> int
\x7b return 1; 2; \x7d f();` evaluating to 2, not 1. -/
theorem return_does_not_terminate_block :
    (∀ (fuel : Nat) (e : Expr) (envId : Nat) (st : InterpState),
      execStmt (fuel+1) (.returnStmt (some e)) envId st = execExpr fuel e envId st) ∧
    (∀ (fuel : Nat) (envId : Nat) (st : InterpState),
      execStmt (fuel+1) (.returnStmt none) envId st = (st, .ok .null)) ∧
    (∀ (fuel : Nat) (s : Stmt) (rest : List Stmt) (acc : Value) (envId : Nat)
      (st st1 : InterpState) (v : Value),
      execStmt fuel s envId st = (st1, .ok v) →
      execStmtSeq (fuel+1) (s :: rest) acc envId st = execStmtSeq fuel rest v envId st1) ∧
    (execute 300 "func f() -> int \x7b return 1; 2; \x7d f();" initState).1.result =
      some (.num (.rat (mkRat 2 1))) := by
  refine ⟨fun fuel e envId st => rfl, fun fuel envId st => rfl, ?_, rfl⟩
  intro fuel s rest acc envId st st1 v h
  rw [execStmtSeq_cons, h]

/-- Witness for C9's sequencing clause: after the first statement of
`return 1; 2;` executes (yielding 1), the fold continues into `2;`. -/
theorem return_does_not_terminate_block_witness :
    execStmtSeq 10 [.returnStmt (some (.numberLit (.rat (mkRat 1 1)) "int")),
        .exprStmt (.numberLit (.rat (mkRat 2 1)) "int")] .null 0 initState =
      (initState, .ok (.num (.rat (mkRat 2 1)))) ∧
    execStmtSeq 10 [.returnStmt (some (.numberLit (.rat (mkRat 1 1)) "int")),
        .exprStmt (.numberLit (.rat (mkRat 2 1)) "int")] .null 0 initState =
      execStmtSeq 9 [.exprStmt (.numberLit (.rat (mkRat 2 1)) "int")]
        (.num (.rat (mkRat 1 1))) 0 initState := by
  refine ⟨rfl, ?_⟩
  exact return_does_not_terminate_block.2.2.1 9
    (.returnStmt (some (.numberLit (.rat (mkRat 1 1)) "int")))
    [.exprStmt (.numberLit (.rat (mkRat 2 1)) "int")] .null 0 initState initState
    (.num (.rat (mkRat 1 1))) rfl

/-- C10: an assignment whose left side is not a plain identifier is
exactly the evaluation of its right side: no binding, array or object
is modified by the assignment itself, no error is raised by it, and the
right-hand value is returned — in particular a pure right side leaves
the state untouched even when the (never-evaluated) target mentions an
unbound name. -/
theorem assign_nonident_is_rhs_only :
    (∀ (fuel : Nat) (lhs rhs : Expr) (envId : Nat) (st : InterpState),
      isIdentE lhs = false →
      execExpr (fuel+1) (.assign lhs rhs) envId st = execExpr fuel rhs envId st) ∧
    execExpr 10 (.assign (.arrayAccess (.ident "a") (.numberLit (.rat (mkRat 0 1)) "int"))
        (.numberLit (.rat (mkRat 5 1)) "int")) 0 initState =
      (initState, .ok (.num (.rat (mkRat 5 1)))) := by
  refine ⟨?_, rfl⟩
  intro fuel lhs rhs envId st h
  rw [execExpr_assign]
  rcases h1 : execExpr fuel rhs envId st with ⟨st1, r1⟩
  cases r1 with
  | error f => rfl
  | ok v => cases lhs <;> first | rfl | simp [isIdentE] at h

/-- Witness for C10 at an array-element target with a literal right
side. -/
theorem assign_nonident_is_rhs_only_witness :
    execExpr 10 (.assign (.arrayAccess (.ident "b") (.numberLit (.rat (mkRat 1 1)) "int"))
        (.stringLit "w")) 0 initState =
      execExpr 9 (.stringLit "w") 0 initState ∧
    execExpr 9 (.stringLit "w") 0 initState = (initState, .ok (.str "w")) :=
  ⟨assign_nonident_is_rhs_only.1 9
      (.arrayAccess (.ident "b") (.numberLit (.rat (mkRat 1 1)) "int"))
      (.stringLit "w") 0 initState rfl, rfl⟩

/-- C2: `isAssignable` is exactly: names equal, or int into float, or a
non-nullable source into a nullable target, and false otherwise; as a
consequence `let x: int = 3.5;` parses cleanly but draws a type-error
diagnostic (the dot-split initializer infers as `unknown`, which is not
assignable to `int`), while `let y: float = 3;` compiles and runs with
no diagnostic at all. -/
theorem isAssignable_table_and_decl_diagnostics :
    (∀ f t : TypeInfo, isAssignable f t =
      (f.name == t.name || (f.name == "int" && t.name == "float") ||
        (t.nullable && !f.nullable))) ∧
    (parse 100 "let x: int = 3.5;").2 = [] ∧
    (execute 100 "let x: int = 3.5;" initState).1.success = false ∧
    (execute 100 "let x: int = 3.5;" initState).1.compileErrors =
      [⟨1, 1, "Cannot assign unknown to int", .error⟩] ∧
    (execute 100 "let y: float = 3;" initState).1.success = true ∧
    (execute 100 "let y: float = 3;" initState).1.compileErrors = [] := by
  refine ⟨?_, rfl, rfl, rfl, rfl, rfl⟩
  intro f t
  unfold isAssignable
  split_ifs with h1 h2 h3 <;> simp_all

/-- C4 counterexample: evaluating an array access whose evaluated index
is the non-integer 1/2 against a one-element array raises no fault at
all — it returns `undefined` — even though 1/2 is not an integer in
[0, 1): the source checks only number-ness and the two bound
comparisons. -/
theorem arrayAccess_noninteger_index_no_fault :
    execExpr 10 (.arrayAccess (.arrayLit [.numberLit (.rat (mkRat 10 1)) "int"])
      (.numberLit (.rat (mkRat 1 2)) "float")) 0 initState = (initState, .ok .undef) ∧
    JsNumber.isIntN (.rat (mkRat 1 2)) = false ∧
    JsNumber.ltN (.rat (mkRat 1 2)) (.rat 0) = false ∧
    JsNumber.geN (.rat (mkRat 1 2)) (.rat (mkRat 1 1)) = false :=
  ⟨rfl, by decide, by decide, by decide⟩

/-- C4 amended: array access faults unless the target is an array and
the index is a number that compares neither below 0 nor at/above the
length; an integer index in range returns exactly the stored element,
`-1` and `length` fault, and a non-integer number inside the bounds
returns `undefined` without fault. -/
theorem arrayAccess_number_bounds :
    (∀ (elems : List Value) (i : Nat), i < elems.length →
      arrayIndexJs (.arr elems) (.num (.rat (mkRat i 1))) = .ok (elems.getD i .undef)) ∧
    (∀ (elems : List Value) (n : JsNumber),
      (JsNumber.ltN n (.rat 0) || JsNumber.geN n (.rat (mkRat elems.length 1))) = true →
      arrayIndexJs (.arr elems) (.num n) = .error "Array index out of bounds") ∧
    (∀ (elems : List Value) (iv : Value), isNumV iv = false →
      arrayIndexJs (.arr elems) iv = .error "Array index out of bounds") ∧
    (∀ (av iv : Value), isArrV av = false →
      arrayIndexJs av iv = .error "Array access on non-array value") ∧
    arrayIndexJs (.arr [.num (.rat (mkRat 7 1))]) (.num (.rat (mkRat (-1) 1))) =
      .error "Array index out of bounds" ∧
    arrayIndexJs (.arr [.num (.rat (mkRat 7 1))]) (.num (.rat (mkRat 1 1))) =
      .error "Array index out of bounds" ∧
    arrayIndexJs (.arr [.num (.rat (mkRat 7 1))]) (.num (.rat (mkRat 1 2))) = .ok .undef := by
  refine ⟨?_, ?_, ?_, ?_, rfl, rfl, rfl⟩
  · intro elems i hi
    unfold arrayIndexJs jsElementAt
    dsimp only
    simp only [Rat.mkRat_one, JsNumber.ltN, JsNumber.geN, JsNumber.leN,
      Rat.den_intCast, Rat.num_intCast]
    have h1 : ¬(((i : ℤ) : ℚ) < 0) := not_lt.mpr (by positivity)
    have h2 : ¬(((elems.length : ℤ) : ℚ) ≤ ((i : ℤ) : ℚ)) := by
      exact_mod_cast Nat.not_le.mpr hi
    have h3 : (0 : ℤ) ≤ (i : ℤ) := Int.natCast_nonneg i
    have h4 : ((i : ℤ)) < (elems.length : ℤ) := by exact_mod_cast hi
    simp [h1, h2, h3, h4, hi]
  · intro elems n h
    unfold arrayIndexJs
    dsimp only
    rw [h]
    rfl
  · intro elems iv h
    cases iv <;> first | rfl | simp [isNumV] at h
  · intro av iv h
    cases av <;> first | rfl | simp [isArrV] at h

/-- Witness for C4's amended bounds clauses at concrete inputs. -/
theorem arrayAccess_number_bounds_witness :
    arrayIndexJs (.arr [Value.null]) (.num (.rat (mkRat 0 1))) =
      .ok ([Value.null].getD 0 .undef) ∧
    arrayIndexJs (.arr []) (.num (.rat (mkRat 3 1))) = .error "Array index out of bounds" ∧
    arrayIndexJs (.arr []) (.str "0") = .error "Array index out of bounds" ∧
    arrayIndexJs (.str "xs") (.num (.rat (mkRat 0 1))) =
      .error "Array access on non-array value" :=
  ⟨arrayAccess_number_bounds.1 [Value.null] 0 (by decide),
    arrayAccess_number_bounds.2.1 [] (.rat (mkRat 3 1)) (by decide),
    arrayAccess_number_bounds.2.2.1 [] (.str "0") rfl,
    arrayAccess_number_bounds.2.2.2.1 (.str "xs") (.num (.rat (mkRat 0 1))) rfl⟩

/-- C5: the tokenizer regex does match a block comment as one token,
but the filter drops only whitespace runs and tokens starting with two
slashes, so the block-comment token is handed to the parser, where it
is a syntax error: a program that is legal but for a leading block
comment fails to compile.  Line comments and whitespace are stripped,
and two-character operators are single tokens. -/
theorem tokenize_block_comment_not_stripped :
    tokenize ("1 /" ++ "* mid *" ++ "/ 2") = ["1", "/" ++ "* mid *" ++ "/", "2"] ∧
    (execute 100 ("/" ++ "* c *" ++ "/ let x: int = 1;") initState).1.success = false ∧
    (execute 100 ("/" ++ "* c *" ++ "/ let x: int = 1;") initState).1.compileErrors =
      [⟨1, 0, "Unexpected token: /" ++ "* c *" ++ "/", .error⟩] ∧
    tokenize ("a == b /" ++ "/ trailing") = ["a", "==", "b"] :=
  ⟨rfl, rfl, rfl, rfl⟩

/-- C6 counterexample: the zero value for a declared type named `char`
is the one-character NUL string, not null; a `let c: char;` declaration
installs that string in the binding. -/
theorem getDefaultValue_char_not_null :
    getDefaultValue (.mk "char" true false []) = .str (String.mk [Char.ofNat 0]) ∧
    getDefaultValue (.mk "char" true false []) ≠ .null ∧
    (getEnv (execStmt 100 (.varDecl "let" "c" (.mk "char" true false []) none true)
        0 initState).1 0).vars =
      [("c", ⟨.mk "char" true false [], .str (String.mk [Char.ofNat 0]), true⟩)] := by
  refine ⟨rfl, ?_, rfl⟩
  intro hc
  exact Value.noConfusion
    (show Value.str (String.mk [Char.ofNat 0]) = Value.null from hc)

/-- C6 amended: the zero value of a missing initializer is 0 for int,
0.0 (the same JS number) for float, the empty string for string, false
for bool, the NUL-character string for char, and null for every other
declared type name. -/
theorem getDefaultValue_zero_values :
    (∀ ty : TypeInfo, ty.name = "int" → getDefaultValue ty = .num (.rat 0)) ∧
    (∀ ty : TypeInfo, ty.name = "float" → getDefaultValue ty = .num (.rat 0)) ∧
    (∀ ty : TypeInfo, ty.name = "string" → getDefaultValue ty = .str "") ∧
    (∀ ty : TypeInfo, ty.name = "bool" → getDefaultValue ty = .bool false) ∧
    (∀ ty : TypeInfo, ty.name = "char" →
      getDefaultValue ty = .str (String.mk [Char.ofNat 0])) ∧
    (∀ ty : TypeInfo,
      ty.name ∉ (["int", "float", "string", "bool", "char"] : List String) →
      getDefaultValue ty = .null) := by
  refine ⟨?_, ?_, ?_, ?_, ?_, ?_⟩
  · intro ty h; simp [getDefaultValue, h]
  · intro ty h; simp [getDefaultValue, h]
  · intro ty h; simp [getDefaultValue, h]
  · intro ty h; simp [getDefaultValue, h]
  · intro ty h; simp [getDefaultValue, h]
  · intro ty h
    simp only [List.mem_cons, List.mem_singleton, not_or, List.not_mem_nil] at h
    obtain ⟨h1, h2, h3, h4, h5, -⟩ := h
    simp [getDefaultValue, h1, h2, h3, h4, h5]

/-- Witness for C6's amended clauses at concrete type descriptors. -/
theorem getDefaultValue_zero_values_witness :
    getDefaultValue (.mk "int" true false []) = .num (.rat 0) ∧
    getDefaultValue (.mk "bool" true false []) = .bool false ∧
    getDefaultValue (.mk "Array<int>" false false []) = .null :=
  ⟨getDefaultValue_zero_values.1 (.mk "int" true false []) rfl,
    getDefaultValue_zero_values.2.2.2.1 (.mk "bool" true false []) rfl,
    getDefaultValue_zero_values.2.2.2.2.2 (.mk "Array<int>" false false []) (by decide)⟩

/-- C3: an assignment to a plain identifier resolves the existing
binding by walking the parent chain and never creates a binding: an
unresolved name and an immutable binding raise runtime errors naming
the variable, a resolved mutable binding is overwritten in place (at
the ancestor context that holds it, as the chain-update program
demonstrates), and the store keeps exactly the same bound names; in
particular after `const pi: float = 3.14;` the statement `pi = 3.0;`
raises the runtime error naming `pi`. -/
theorem assignment_resolves_chain_immutable_pi :
    (∀ (st : InterpState) (envId : Nat) (name : String) (v : Value),
      resolveVarChain st envId name = none →
      assignVar st envId name v = (st, .error ("Undefined variable: " ++ name))) ∧
    (∀ (st : InterpState) (envId : Nat) (name : String) (v : Value) (i : Nat) (b : Binding),
      resolveVarChain st envId name = some (i, b) → b.mutable = false →
      assignVar st envId name v =
        (st, .error ("Cannot assign to immutable variable: " ++ name))) ∧
    (∀ (st : InterpState) (envId : Nat) (name : String) (v : Value) (i : Nat) (b : Binding),
      resolveVarChain st envId name = some (i, b) → b.mutable = true →
      assignVar st envId name v = (envSetVar st i name ⟨b.ty, v, b.mutable⟩, .ok v)) ∧
    (∀ (st : InterpState) (envId : Nat) (name : String) (v : Value),
      namesOfEnvs (assignVar st envId name v).1 = namesOfEnvs st) ∧
    (∀ (fuel : Nat) (name : String) (rhs : Expr) (envId : Nat) (st st1 st2 : InterpState)
      (v : Value) (m : String),
      execExpr fuel rhs envId st = (st1, .ok v) →
      assignVar st1 envId name v = (st2, .error m) →
      execExpr (fuel+1) (.assign (.ident name) rhs) envId st = (st2, .error (.err m))) ∧
    (∀ (fuel : Nat) (name : String) (rhs : Expr) (envId : Nat) (st st1 st2 : InterpState)
      (v w : Value),
      execExpr fuel rhs envId st = (st1, .ok v) →
      assignVar st1 envId name v = (st2, .ok w) →
      execExpr (fuel+1) (.assign (.ident name) rhs) envId st = (st2, .ok w)) ∧
    (execStmtSeq 100 ((parse 100 "const pi: float = 3.14;").1 ++ (parse 100 "pi = 3.0;").1)
        .null 0 initState).2 =
      .error (.err ("Cannot assign to immutable variable: " ++ "pi")) ∧
    (execute 300 "let x: int = 1; func g() -> int \x7b x = 5; \x7d g(); x;" initState).1.result =
      some (.num (.rat (mkRat 5 1))) := by
  refine ⟨?_, ?_, ?_, assignVar_preserves_names, ?_, ?_, rfl, rfl⟩
  · intro st envId name v h
    unfold assignVar
    rw [h]
  · intro st envId name v i b h hm
    unfold assignVar
    rw [h]
    simp [hm]
  · intro st envId name v i b h hm
    unfold assignVar
    rw [h]
    simp [hm]
  · intro fuel name rhs envId st st1 st2 v m h1 h2
    rw [execExpr_assign, h1]
    dsimp only
    rw [h2]
  · intro fuel name rhs envId st st1 st2 v w h1 h2
    rw [execExpr_assign, h1]
    dsimp only
    rw [h2]

/-- Witness for C3's unresolved and immutable clauses against concrete
stores. -/
theorem assignment_resolves_chain_immutable_pi_witness :
    assignVar initState 0 "pi" .null = (initState, .error ("Undefined variable: " ++ "pi")) ∧
    assignVar (envSetVar initState 0 "pi" ⟨.mk "float" true false [], .undef, false⟩)
        0 "pi" .null =
      (envSetVar initState 0 "pi" ⟨.mk "float" true false [], .undef, false⟩,
        .error ("Cannot assign to immutable variable: " ++ "pi")) ∧
    assignVar (envSetVar initState 0 "y" ⟨.mk "int" true false [], .num (.rat 0), true⟩)
        0 "y" (.num (.rat (mkRat 4 1))) =
      (envSetVar (envSetVar initState 0 "y" ⟨.mk "int" true false [], .num (.rat 0), true⟩)
        0 "y" ⟨.mk "int" true false [], .num (.rat (mkRat 4 1)), true⟩, .ok (.num (.rat (mkRat 4 1)))) :=
  ⟨assignment_resolves_chain_immutable_pi.1 initState 0 "pi" .null rfl,
    assignment_resolves_chain_immutable_pi.2.1
      (envSetVar initState 0 "pi" ⟨.mk "float" true false [], .undef, false⟩)
      0 "pi" .null 0 ⟨.mk "float" true false [], .undef, false⟩ rfl rfl,
    assignment_resolves_chain_immutable_pi.2.2.1
      (envSetVar initState 0 "y" ⟨.mk "int" true false [], .num (.rat 0), true⟩)
      0 "y" (.num (.rat (mkRat 4 1))) 0 ⟨.mk "int" true false [], .num (.rat 0), true⟩ rfl rfl⟩

/-- C7: when the run aborts with a runtime error, `execute` reports
`success = false` with that single message and returns the output
buffered up to the fault; any initial statements that had completed
before the fault contributed their `print`/`println` lines to that
returned list, in order, as a list prefix. -/
theorem execute_runtime_error_preserves_output
    (fuel : Nat) (code : String) (st0 : InterpState) (stmts : List Stmt)
    (st1 : InterpState) (msg : String)
    (hp : parse fuel code = (stmts, []))
    (ht : typeCheck (getEnv { st0 with output := [], warnings := [] } 0).vars stmts = [])
    (he : execStmtSeq fuel stmts .null 0 { st0 with output := [], warnings := [] } =
      (st1, .error (.err msg))) :
    (execute fuel code st0).1.success = false ∧
    (execute fuel code st0).1.error = some msg ∧
    (execute fuel code st0).1.result = none ∧
    (execute fuel code st0).1.output = st1.output ∧
    (∀ pre suf st2 v2, stmts = pre ++ suf →
      execStmtSeq fuel pre .null 0 { st0 with output := [], warnings := [] } = (st2, .ok v2) →
      ∃ t, st1.output = st2.output ++ t) := by
  have hrun : execute fuel code st0 =
      (⟨false, none, some msg, st1.output, st1.warnings, []⟩, st1) := by
    unfold execute
    rw [hp]
    simp only [List.length_nil, gt_iff_lt, lt_self_iff_false, if_false]
    rw [ht]
    simp only [List.length_nil, gt_iff_lt, lt_self_iff_false, if_false]
    rw [he]
  refine ⟨by rw [hrun], by rw [hrun], by rw [hrun], by rw [hrun], ?_⟩
  intro pre suf st2 v2 hsplit hpre
  obtain ⟨m, _, heq⟩ := stmtSeq_split pre suf fuel .null v2 0 _ st2 hpre
  rw [hsplit] at he
  rw [he] at heq
  have hmono := (outMono_iF m).2.1 suf v2 0 st2
  rw [show (iF m).stmtSeq suf v2 0 st2 = (st1, .error (.err msg)) from heq.symm] at hmono
  exact hmono

/-- Witness for C7 at `println( "a" ); [1][2];`: the run crashes on the
out-of-bounds access, the single error message is returned, and the
line buffered by the completed `println` statement survives into the
returned output. -/
theorem execute_runtime_error_preserves_output_witness :
    (execute 200 "println( \" a \" ); [1][2];" initState).1.success = false ∧
    (execute 200 "println( \" a \" ); [1][2];" initState).1.error =
      some "Array index out of bounds" ∧
    (execute 200 "println( \" a \" ); [1][2];" initState).1.output = ["a"] ∧
    (∃ t, (⟨[rootEnv], ["a"], []⟩ : InterpState).output = ["a"] ++ t) := by
  have h := execute_runtime_error_preserves_output 200 "println( \" a \" ); [1][2];"
    initState
    [.exprStmt (.call (.ident "println") [.stringLit "a"]),
     .exprStmt (.arrayAccess (.arrayLit [.numberLit (.rat (mkRat 1 1)) "int"])
       (.numberLit (.rat (mkRat 2 1)) "int"))]
    ⟨[rootEnv], ["a"], []⟩ "Array index out of bounds" rfl rfl rfl
  refine ⟨h.1, h.2.1, h.2.2.2.1, ?_⟩
  exact h.2.2.2.2 [.exprStmt (.call (.ident "println") [.stringLit "a"])]
    [.exprStmt (.arrayAccess (.arrayLit [.numberLit (.rat (mkRat 1 1)) "int"])
      (.numberLit (.rat (mkRat 2 1)) "int"))]
    ⟨[rootEnv], ["a"], []⟩ .undef rfl rfl

end HackScript
